import Mathlib

/-! ## ffrog: the UDisks2 client and the main-window scheduler

A shallow embedding of `src/UDisks2.cpp` and of the scheduling logic of
`src/MainWindow.cpp`.

* Qt strings are lists of characters, byte arrays are lists of byte values.
* The D-Bus service is a deterministic transition system `Backend σ`: property
  reads and validity checks observe the state, `Unmount`, `Format` and `Rescan`
  may change it.  Every function that talks to the service returns the method
  calls it issued, in order, together with the replies it received.
* `bool f(..., QString* error)` becomes a `Status`: the C++ functions return
  `false` exactly on the paths that store a message in `*error`.
-/

set_option autoImplicit false

namespace FFrog

/-! ## Qt strings -/

/-- A `QString`, as its sequence of characters. -/
abbrev QString := List Char

/-- A `QByteArray`, as its sequence of byte values (each below 256). -/
abbrev QByteArray := List Nat

/-- String literal as a `QString`. -/
def qs (s : String) : QString := s.data

/-- `QString::startsWith(p)`, case sensitive. -/
def startsWith (s p : QString) : Bool := p.isPrefixOf s

/-- `QString::contains(pat)`, case sensitive: `pat` occurs at some offset of `s`. -/
def containsStr (pat : QString) : QString → Bool
  | [] => pat.isPrefixOf []
  | c :: cs => pat.isPrefixOf (c :: cs) || containsStr pat cs

/-- Case folding used by `Qt::CaseInsensitive` comparisons, on the ASCII letters. -/
def foldCase (c : Char) : Char :=
  if 65 ≤ c.toNat ∧ c.toNat ≤ 90 then Char.ofNat (c.toNat + 32) else c

/-- `QString::contains(pat, Qt::CaseInsensitive)`. -/
def containsCI (s pat : QString) : Bool :=
  containsStr (pat.map foldCase) (s.map foldCase)

/-- `QString::section(sep, -1)`: the last `sep`-separated field of `s`. -/
def sectionLast (sep : Char) (s : QString) : QString :=
  (s.reverse.takeWhile (fun c => c != sep)).reverse

/-- `QChar::isSpace`. -/
def isSpace (c : Char) : Bool :=
  let n := c.toNat
  (9 ≤ n && n ≤ 13) || n == 32 || n == 133 || n == 160 || n == 5760 ||
  (8192 ≤ n && n ≤ 8202) || n == 8232 || n == 8233 || n == 8239 || n == 8287 || n == 12288

/-- `QString::trimmed()`: whitespace removed from both ends. -/
def trimmed (s : QString) : QString :=
  ((s.dropWhile isSpace).reverse.dropWhile isSpace).reverse

/-- Decimal rendering of a counter, as `QString::arg(int)` prints it. -/
def decimal (n : Nat) : QString := (Nat.repr n).data

/-! ## The regular expressions of the whole-disk test

`QRegularExpression` is PCRE2 with default options: `^` matches at the start of
the subject only, `$` matches at the very end of the subject and also
immediately before a line feed that is the last character of the subject,
`[a-z]` and `\d` are ASCII classes, and `QString::contains(re)` searches for a
match starting at any offset. -/

/-- Character classes used by the patterns. -/
inductive CharClass where
  | lower
  | digit
  deriving DecidableEq, Repr

/-- Membership in a character class: `[a-z]` and `\d`. -/
def CharClass.mem : CharClass → Char → Bool
  | CharClass.lower, c => 97 ≤ c.toNat && c.toNat ≤ 122
  | CharClass.digit, c => 48 ≤ c.toNat && c.toNat ≤ 57

/-- Pattern items: `^`, `$`, a literal character, `class+`. -/
inductive Atom where
  | bol
  | eol
  | chr (c : Char)
  | plus (cls : CharClass)
  deriving DecidableEq, Repr

/-- One or more characters satisfying `p`, then the continuation `k`
(longest repetition tried first, then shorter ones). -/
def matchPlus (p : Char → Bool) (k : QString → Bool) : QString → Bool
  | [] => false
  | c :: cs => p c && (matchPlus p k cs || k cs)

/-- Match the pattern at the current position; `atStart` tells whether that
position is offset 0 of the subject. -/
def matchHere : List Atom → Bool → QString → Bool
  | [], _, _ => true
  | Atom.bol :: r, atStart, s => atStart && matchHere r atStart s
  | Atom.eol :: r, atStart, s => (s == [] || s == [Char.ofNat 10]) && matchHere r atStart s
  | Atom.chr c :: r, _, s =>
    match s with
    | [] => false
    | d :: t => d == c && matchHere r false t
  | Atom.plus cls :: r, _, s => matchPlus cls.mem (matchHere r false) s

/-- Try the pattern at every offset of the subject. -/
def searchFrom (re : List Atom) : Bool → QString → Bool
  | atStart, [] => matchHere re atStart []
  | atStart, c :: cs => matchHere re atStart (c :: cs) || searchFrom re false cs

/-- `QString::contains(const QRegularExpression&)`. -/
def containsRe (s : QString) (re : List Atom) : Bool := searchFrom re true s

/-- The pattern `^sd[a-z]+$`. -/
def reSd : List Atom :=
  [Atom.bol, Atom.chr 's', Atom.chr 'd', Atom.plus CharClass.lower, Atom.eol]

/-- The pattern `^nvme\d+n\d+$`. -/
def reNvme : List Atom :=
  [Atom.bol, Atom.chr 'n', Atom.chr 'v', Atom.chr 'm', Atom.chr 'e',
   Atom.plus CharClass.digit, Atom.chr 'n', Atom.plus CharClass.digit, Atom.eol]

/-- The pattern `^mmcblk\d+$`. -/
def reMmcblk : List Atom :=
  [Atom.bol, Atom.chr 'm', Atom.chr 'm', Atom.chr 'c', Atom.chr 'b', Atom.chr 'l',
   Atom.chr 'k', Atom.plus CharClass.digit, Atom.eol]

/-- The whole-disk test of `listUsbRemovable` on a basename `bn`
(`UDisks2.cpp`, the `isWholeDisk` local). -/
def isWholeDisk (bn : QString) : Bool :=
  containsRe bn reSd || containsRe bn reNvme || containsRe bn reMmcblk

/-- End of subject as `$` sees it: nothing left, or one final line feed. -/
def AtDollar (r : QString) : Prop := r = [] ∨ r = [Char.ofNat 10]

/-- The whole-disk grammar as the specification words it: the whole of `s` is
`sd[a-z]+`, `nvme\d+n\d+` or `mmcblk\d+` (anchored, full match). -/
def WholeDiskGrammar (s : QString) : Prop :=
  (∃ l : QString, l ≠ [] ∧ (∀ c ∈ l, CharClass.lower.mem c = true) ∧ s = qs "sd" ++ l) ∨
  (∃ a b : QString, a ≠ [] ∧ b ≠ [] ∧ (∀ c ∈ a, CharClass.digit.mem c = true) ∧
    (∀ c ∈ b, CharClass.digit.mem c = true) ∧ s = qs "nvme" ++ a ++ qs "n" ++ b) ∨
  (∃ a : QString, a ≠ [] ∧ (∀ c ∈ a, CharClass.digit.mem c = true) ∧ s = qs "mmcblk" ++ a)

/-! ## Variants, option maps and D-Bus replies

The conversions of `QVariant` follow the Qt documentation for the value types
listed; a conversion that Qt does not define yields the default value of the
target type. -/

/-- A `QVariant` holding one of the D-Bus value types the UDisks2 interfaces use
(`b`, `i`/`u`/`t`, `s`, `o`, `ay`), or nothing. -/
inductive QVariant where
  | invalid
  | bool (b : Bool)
  | int (i : Int)
  | uint (n : Nat)
  | string (s : QString)
  | objectPath (p : QString)
  | byteArray (bs : QByteArray)
  deriving DecidableEq, Repr

/-- Two's-complement reading of an integer as a C++ `int` (32 bits). -/
def wrapInt32 (i : Int) : Int :=
  let m := i % 4294967296
  if m < 2147483648 then m else m - 4294967296

/-- `std::numeric_limits<int>::max()`. -/
def intMax : Int := 2147483647

/-- `QVariant::toBool()`. -/
def QVariant.toBool : QVariant → Bool
  | QVariant.bool b => b
  | QVariant.int i => i != 0
  | QVariant.uint n => n != 0
  | QVariant.string s => !(s == [] || s == qs "0" || s.map foldCase == qs "false")
  | QVariant.byteArray bs =>
    !(bs == [] || bs == [48] || (bs.map Char.ofNat).map foldCase == qs "false")
  | _ => false

/-- `QVariant::toString()`. -/
def QVariant.toQString : QVariant → QString
  | QVariant.string s => s
  | QVariant.bool b => if b then qs "true" else qs "false"
  | QVariant.int i => (toString i).data
  | QVariant.uint n => decimal n
  | QVariant.byteArray bs => bs.map Char.ofNat
  | _ => []

/-- `QVariant::toInt()`. -/
def QVariant.toInt : QVariant → Int
  | QVariant.int i => wrapInt32 i
  | QVariant.uint n => wrapInt32 n
  | QVariant.bool b => if b then 1 else 0
  | QVariant.string s =>
    match (String.mk s).toInt? with
    | some i => if -2147483648 ≤ i ∧ i ≤ 2147483647 then i else 0
    | none => 0
  | _ => 0

/-- `QVariant::toULongLong()`. -/
def QVariant.toULongLong : QVariant → Nat
  | QVariant.uint n => n % 18446744073709551616
  | QVariant.int i => (i % 18446744073709551616).toNat
  | QVariant.bool b => if b then 1 else 0
  | QVariant.string s =>
    match (String.mk s).toNat? with
    | some n => if n < 18446744073709551616 then n else 0
    | none => 0
  | _ => 0

/-- `QVariant::toByteArray()`. -/
def QVariant.toByteArray : QVariant → QByteArray
  | QVariant.byteArray bs => bs
  | QVariant.string s => (String.mk s).toUTF8.data.toList.map UInt8.toNat
  | QVariant.bool b => if b then [116, 114, 117, 101] else [102, 97, 108, 115, 101]
  | QVariant.int i => (toString i).data.map Char.toNat
  | QVariant.uint n => (decimal n).map Char.toNat
  | _ => []

/-- `qvariant_cast<QDBusObjectPath>(v).path()`: the path when the variant holds
an object path, the path of a default-constructed `QDBusObjectPath` otherwise. -/
def QVariant.toObjectPath : QVariant → QString
  | QVariant.objectPath p => p
  | _ => []

/-- A `QVariantMap` (`QMap<QString, QVariant>`), as an association list with
unique keys. -/
abbrev QVariantMap := List (QString × QVariant)

/-- `QVariantMap::insert(key, value)`: replaces the value of an existing key. -/
def QVariantMap.insert (m : QVariantMap) (k : QString) (v : QVariant) : QVariantMap :=
  if m.any (fun e => e.1 == k) then m.map (fun e => if e.1 == k then (k, v) else e)
  else m ++ [(k, v)]

/-- A D-Bus error reply: error name and message. -/
structure DBusError where
  name : QString
  message : QString
  deriving DecidableEq, Repr

/-- A `QDBusReply<T>`: a value when `isValid()`, an error otherwise. -/
inductive Reply (α : Type) where
  | value (a : α)
  | error (e : DBusError)
  deriving DecidableEq, Repr

/-! ## The UDisks2 service -/

/-- The service name constants of `UDisks2.cpp`. -/
def kManagerPath : QString := qs "/org/freedesktop/UDisks2/Manager"

/-- Interface name of the manager object. -/
def kManagerIface : QString := qs "org.freedesktop.UDisks2.Manager"

/-- Interface name of the property accessor. -/
def kPropsIface : QString := qs "org.freedesktop.DBus.Properties"

/-- Interface name of block devices. -/
def kBlockIface : QString := qs "org.freedesktop.UDisks2.Block"

/-- Interface name of partitions. -/
def kPartitionIface : QString := qs "org.freedesktop.UDisks2.Partition"

/-- Interface name of drives. -/
def kDriveIface : QString := qs "org.freedesktop.UDisks2.Drive"

/-- Interface name of mountable filesystems. -/
def kFilesystemIface : QString := qs "org.freedesktop.UDisks2.Filesystem"

/-- The service on the system bus, seen from the client, with state space `σ`.
* `isValid st path iface`: `QDBusInterface(kService, path, iface, systemBus()).isValid()`;
* `get st path iface prop`: reply of `org.freedesktop.DBus.Properties.Get`;
* `getBlockDevices st`: reply of `Manager.GetBlockDevices`;
* `unmount`, `format`, `rescan`: the mutating methods, with the next state;
* `fromLocal8Bit`: the locale codec of `QString::fromLocal8Bit`. -/
structure Backend (σ : Type) where
  isValid : σ → QString → QString → Bool
  get : σ → QString → QString → QString → Reply QVariant
  getBlockDevices : σ → Reply (List QString)
  unmount : σ → QString → Reply Unit × σ
  format : σ → QString → QString → QVariantMap → Reply Unit × σ
  rescan : σ → QString → σ
  fromLocal8Bit : QByteArray → QString

/-- A method call issued to the service, with the reply received. -/
inductive Call where
  | unmount (obj : QString) (reply : Reply Unit)
  | format (obj : QString) (fsType : QString) (opts : QVariantMap) (reply : Reply Unit)
  | rescan (obj : QString)
  deriving DecidableEq, Repr

/-- Outcome of a `bool f(..., QString* error)` function: `ok` for `true`,
`failed msg` for `false` with `*error = msg`. -/
inductive Status where
  | ok
  | failed (error : QString)
  deriving DecidableEq, Repr

/-- Result of a client function: its return value, the state it leaves the
service in, and the calls it issued. -/
structure Run (σ : Type) where
  result : Status
  state : σ
  calls : List Call

variable {σ : Type}

/-- `UDisks2::getProp`: the value read (an invalid variant on failure) and the
`ok` flag. -/
def getProp (B : Backend σ) (st : σ) (objPath iface prop : QString) : QVariant × Bool :=
  if !B.isValid st objPath kPropsIface then (QVariant.invalid, false)
  else
    match B.get st objPath iface prop with
    | Reply.error _ => (QVariant.invalid, false)
    | Reply.value v => (v, true)

/-- `UDisks2::bytesToString` on the byte array of the variant: one trailing NUL
is chopped, and the bytes are decoded as a C string (up to the first NUL). -/
def bytesToString (codec : QByteArray → QString) (v : QVariant) : QString :=
  let ba := v.toByteArray
  if ba.isEmpty then []
  else
    let tmp := if ba.getLast? == some 0 then ba.dropLast else ba
    codec (tmp.takeWhile (fun b => b != 0))

/-- The record `UDisks2::UsbDevice`. -/
structure UsbDevice where
  blockObject : QString
  driveObject : QString
  deviceNode : QString
  vendor : QString
  model : QString
  serial : QString
  sizeBytes : Nat
  readOnly : Bool
  deriving DecidableEq, Repr

/-- Outcome of one iteration of the loop of `listUsbRemovable`: the counter that
is incremented, or the record that is appended. -/
inductive Verdict where
  | partition
  | noDrive
  | nonUsb
  | hinted
  | notWholeDisk
  | noDev
  | accept (dev : UsbDevice)
  deriving DecidableEq, Repr

/-- The `deviceNode` computed for a block (`UDisks2.cpp` lines 118-124). -/
def deviceNodeOf (B : Backend σ) (st : σ) (blockPath : QString) : QString :=
  let n1 := bytesToString B.fromLocal8Bit (getProp B st blockPath kBlockIface (qs "PreferredDevice")).1
  let n2 := if n1.isEmpty then
      bytesToString B.fromLocal8Bit (getProp B st blockPath kBlockIface (qs "Device")).1
    else n1
  if n2.isEmpty then
    let base := sectionLast '/' blockPath
    if !base.isEmpty then qs "/dev/" ++ base else n2
  else n2

/-- The body of the loop of `listUsbRemovable` for one block object. -/
def classifyBlock (B : Backend σ) (st : σ) (blockPath : QString) : Verdict :=
  if (getProp B st blockPath kPartitionIface (qs "Number")).2 then Verdict.partition
  else
    let driveVar := getProp B st blockPath kBlockIface (qs "Drive")
    if !driveVar.2 then Verdict.noDrive
    else
      let drivePath := driveVar.1.toObjectPath
      if drivePath.isEmpty || drivePath == qs "/" then Verdict.noDrive
      else
        let conn := (getProp B st drivePath kDriveIface (qs "ConnectionBus")).1.toQString
        if !containsCI conn (qs "usb") then Verdict.nonUsb
        else
          let hintSystem := (getProp B st blockPath kBlockIface (qs "HintSystem")).1.toBool
          let hintIgnore := (getProp B st blockPath kBlockIface (qs "HintIgnore")).1.toBool
          if hintSystem || hintIgnore then Verdict.hinted
          else
            let deviceNode := deviceNodeOf B st blockPath
            let bn := sectionLast '/' deviceNode
            if !isWholeDisk bn then Verdict.notWholeDisk
            else
              let dev : UsbDevice :=
                { blockObject := blockPath
                  driveObject := drivePath
                  deviceNode := deviceNode
                  vendor := (getProp B st drivePath kDriveIface (qs "Vendor")).1.toQString
                  model := (getProp B st drivePath kDriveIface (qs "Model")).1.toQString
                  serial := (getProp B st drivePath kDriveIface (qs "Serial")).1.toQString
                  sizeBytes := (getProp B st blockPath kBlockIface (qs "Size")).1.toULongLong
                  readOnly := (getProp B st blockPath kBlockIface (qs "ReadOnly")).1.toBool }
              if startsWith dev.deviceNode (qs "/dev/") then Verdict.accept dev
              else Verdict.noDev

/-- The local variables of `listUsbRemovable`: the output vector and the debug
counters. -/
structure ListState where
  out : List UsbDevice := []
  blocks : Nat := 0
  partitions : Nat := 0
  noDrive : Nat := 0
  nonUsb : Nat := 0
  hinted : Nat := 0
  noDev : Nat := 0
  notWholeDisk : Nat := 0
  deriving DecidableEq, Repr

/-- One iteration of the loop of `listUsbRemovable`. -/
def listStep (B : Backend σ) (st : σ) (acc : ListState) (blockPath : QString) : ListState :=
  let acc := { acc with blocks := acc.blocks + 1 }
  match classifyBlock B st blockPath with
  | Verdict.partition => { acc with partitions := acc.partitions + 1 }
  | Verdict.noDrive => { acc with noDrive := acc.noDrive + 1 }
  | Verdict.nonUsb => { acc with nonUsb := acc.nonUsb + 1 }
  | Verdict.hinted => { acc with hinted := acc.hinted + 1 }
  | Verdict.notWholeDisk => { acc with notWholeDisk := acc.notWholeDisk + 1 }
  | Verdict.noDev => { acc with noDev := acc.noDev + 1 }
  | Verdict.accept dev => { acc with out := acc.out ++ [dev] }

/-- The diagnostic stored in `*error` when the output is empty. -/
def zeroDevicesMessage (acc : ListState) : QString :=
  qs "UDisks2 reachable, but filter returned 0 USB whole-disk devices. " ++
  qs "blocks=" ++ decimal acc.blocks ++ qs " partitions=" ++ decimal acc.partitions ++
  qs " noDrive=" ++ decimal acc.noDrive ++ qs " nonUsb=" ++ decimal acc.nonUsb ++
  qs " hinted=" ++ decimal acc.hinted ++ qs " notWholeDisk=" ++ decimal acc.notWholeDisk ++
  qs " noDev=" ++ decimal acc.noDev

/-- `UDisks2::listUsbRemovable(&err)` with `err` initially empty: the records
and the final content of `err`. -/
def listUsbRemovable (B : Backend σ) (st : σ) : List UsbDevice × QString :=
  if !B.isValid st kManagerPath kManagerIface then
    ([], qs "Can't talk to udisksd on the system D-Bus. Is the udisks2 service running?")
  else
    match B.getBlockDevices st with
    | Reply.error e => ([], qs "GetBlockDevices failed: " ++ e.message)
    | Reply.value blocks =>
      let acc := blocks.foldl (listStep B st) {}
      if acc.out.isEmpty then (acc.out, zeroDevicesMessage acc) else (acc.out, [])

/-! ## Unmounting, partition selection, format and wipe -/

/-- `UDisks2::unmountIfMounted`. -/
def unmountIfMounted (B : Backend σ) (st : σ) (blockObject : QString) : Run σ :=
  if !(getProp B st blockObject kFilesystemIface (qs "MountPoints")).2 then
    { result := Status.ok, state := st, calls := [] }
  else
    let r := B.unmount st blockObject
    match r.1 with
    | Reply.value _ =>
      { result := Status.ok, state := r.2, calls := [Call.unmount blockObject r.1] }
    | Reply.error e =>
      if containsCI e.message (qs "Not mounted") || containsCI e.message (qs "not mounted") then
        { result := Status.ok, state := r.2, calls := [Call.unmount blockObject r.1] }
      else
        { result := Status.failed (qs "Unmount failed: " ++ e.message), state := r.2,
          calls := [Call.unmount blockObject r.1] }

/-- The loop of `unmountAllOnSameDrive` over the listed block objects. -/
def unmountSiblings (B : Backend σ) (drivePath : QString) : List QString → σ → Run σ
  | [], st => { result := Status.ok, state := st, calls := [] }
  | p :: ps, st =>
    let drv2 := getProp B st p kBlockIface (qs "Drive")
    if !drv2.2 then unmountSiblings B drivePath ps st
    else if drv2.1.toObjectPath != drivePath then unmountSiblings B drivePath ps st
    else
      let r := unmountIfMounted B st p
      match r.result with
      | Status.failed e => { result := Status.failed e, state := r.state, calls := r.calls }
      | Status.ok =>
        let r2 := unmountSiblings B drivePath ps r.state
        { result := r2.result, state := r2.state, calls := r.calls ++ r2.calls }

/-- `UDisks2::unmountAllOnSameDrive`. -/
def unmountAllOnSameDrive (B : Backend σ) (st : σ) (blockObject : QString) : Run σ :=
  let r0 := unmountIfMounted B st blockObject
  match r0.result with
  | Status.failed e => { result := Status.failed e, state := r0.state, calls := r0.calls }
  | Status.ok =>
    let driveVar := getProp B r0.state blockObject kBlockIface (qs "Drive")
    if !driveVar.2 then { result := Status.ok, state := r0.state, calls := r0.calls }
    else
      let drivePath := driveVar.1.toObjectPath
      if drivePath.isEmpty || drivePath == qs "/" then
        { result := Status.ok, state := r0.state, calls := r0.calls }
      else if !B.isValid r0.state kManagerPath kManagerIface then
        { result := Status.ok, state := r0.state, calls := r0.calls }
      else
        match B.getBlockDevices r0.state with
        | Reply.error _ => { result := Status.ok, state := r0.state, calls := r0.calls }
        | Reply.value blocks =>
          let r := unmountSiblings B drivePath blocks r0.state
          { result := r.result, state := r.state, calls := r0.calls ++ r.calls }

/-- One iteration of the loop of `pickPrimaryPartitionBlock` on the pair
`(bestNum, bestPath)`. -/
def pickStep (B : Backend σ) (st : σ) (drivePath : QString) (best : Int × QString)
    (p : QString) : Int × QString :=
  let drv2 := getProp B st p kBlockIface (qs "Drive")
  if !drv2.2 then best
  else if drv2.1.toObjectPath != drivePath then best
  else
    let numVar := getProp B st p kPartitionIface (qs "Number")
    if !numVar.2 then best
    else
      let num := numVar.1.toInt
      if num ≤ 0 then best
      else if num < best.1 then (num, p)
      else best

/-- `UDisks2::pickPrimaryPartitionBlock`; the empty string stands for "none". -/
def pickPrimaryPartitionBlock (B : Backend σ) (st : σ) (blockObject : QString) : QString :=
  let driveVar := getProp B st blockObject kBlockIface (qs "Drive")
  if !driveVar.2 then []
  else
    let drivePath := driveVar.1.toObjectPath
    if drivePath.isEmpty || drivePath == qs "/" then []
    else if !B.isValid st kManagerPath kManagerIface then []
    else
      match B.getBlockDevices st with
      | Reply.error _ => []
      | Reply.value blocks => (blocks.foldl (pickStep B st drivePath) (intMax, [])).2

/-- The options map built by `formatBlock`. -/
def formatOpts (label eraseMode : QString) (tearDown : Bool) : QVariantMap :=
  let opts : QVariantMap := []
  let opts := if !label.isEmpty then opts.insert (qs "label") (QVariant.string label) else opts
  let opts := if !eraseMode.isEmpty then opts.insert (qs "erase") (QVariant.string eraseMode)
    else opts
  let opts := opts.insert (qs "take-ownership") (QVariant.bool true)
  let opts := opts.insert (qs "update-partition-type") (QVariant.bool true)
  if tearDown then opts.insert (qs "tear-down") (QVariant.bool true) else opts

/-- The options map built by `wipeBlock`. -/
def wipeOpts (eraseMode : QString) (tearDown : Bool) : QVariantMap :=
  let opts : QVariantMap := []
  let opts := if !eraseMode.isEmpty then opts.insert (qs "erase") (QVariant.string eraseMode)
    else opts
  if tearDown then opts.insert (qs "tear-down") (QVariant.bool true) else opts

/-- The block that `formatBlock` formats: the primary partition when one is
picked, the given block otherwise. -/
def fmtTarget (B : Backend σ) (st : σ) (blockObject : QString) : QString :=
  let primaryPart := pickPrimaryPartitionBlock B st blockObject
  if primaryPart.isEmpty then blockObject else primaryPart

/-- `UDisks2::formatBlock`. -/
def formatBlock (B : Backend σ) (st : σ) (blockObject fsType label eraseMode : QString)
    (tearDown : Bool) : Run σ :=
  let target := fmtTarget B st blockObject
  let u := unmountAllOnSameDrive B st blockObject
  match u.result with
  | Status.failed e => { result := Status.failed e, state := u.state, calls := u.calls }
  | Status.ok =>
    if !B.isValid u.state target kBlockIface then
      { result := Status.failed
          (qs "org.freedesktop.UDisks2.Block interface not available for: " ++ target),
        state := u.state, calls := u.calls }
    else
      let opts := formatOpts label eraseMode tearDown
      let f := B.format u.state target fsType opts
      match f.1 with
      | Reply.error e =>
        { result := Status.failed (qs "Format failed: " ++ e.message), state := f.2,
          calls := u.calls ++ [Call.format target fsType opts f.1] }
      | Reply.value _ =>
        { result := Status.ok, state := B.rescan f.2 target,
          calls := u.calls ++ [Call.format target fsType opts f.1, Call.rescan target] }

/-- `UDisks2::wipeBlock`. -/
def wipeBlock (B : Backend σ) (st : σ) (blockObject eraseMode : QString)
    (tearDown : Bool) : Run σ :=
  let u := unmountAllOnSameDrive B st blockObject
  match u.result with
  | Status.failed e => { result := Status.failed e, state := u.state, calls := u.calls }
  | Status.ok =>
    if !B.isValid u.state blockObject kBlockIface then
      { result := Status.failed
          (qs "org.freedesktop.UDisks2.Block interface not available for: " ++ blockObject),
        state := u.state, calls := u.calls }
    else
      let opts := wipeOpts eraseMode tearDown
      let f := B.format u.state blockObject (qs "empty") opts
      match f.1 with
      | Reply.error e =>
        { result := Status.failed (qs "Wipe (empty) failed: " ++ e.message), state := f.2,
          calls := u.calls ++ [Call.format blockObject (qs "empty") opts f.1] }
      | Reply.value _ =>
        { result := Status.ok, state := B.rescan f.2 blockObject,
          calls := u.calls ++ [Call.format blockObject (qs "empty") opts f.1,
                               Call.rescan blockObject] }

/-- The `Format` calls of a trace: target, filesystem type and options. -/
def formatCalls : List Call → List (QString × QString × QVariantMap)
  | [] => []
  | Call.format obj fsType opts _ :: cs => (obj, fsType, opts) :: formatCalls cs
  | _ :: cs => formatCalls cs

/-- The `Unmount` calls of a trace: the blocks they were issued on. -/
def unmountCalls : List Call → List QString
  | [] => []
  | Call.unmount obj _ :: cs => obj :: unmountCalls cs
  | _ :: cs => unmountCalls cs

/-! ## The main window

The state of `MainWindow` that its slots read and write.  Log lines are kept
without the timestamp that `appendLog` puts in front of them; message boxes and
the layout are left out.  `QListWidget` emits `itemSelectionChanged` from
`clear()` (when a row is selected, and before the current row is reset) and from
`setCurrentItem` (after the current row is set); `QLineEdit::setText` emits
`textChanged` when the text changes. -/

/-- The data roles of one row of `list_`: block object, device node, read-only. -/
structure Item where
  blockObject : QString
  deviceNode : QString
  readOnly : Bool
  deriving DecidableEq, Repr

/-- The work a background task runs, as captured by `doFormat`, `doWipeQuick`
and `doWipeFull`. -/
inductive Op where
  | format (block fsType label : QString) (tearDown : Bool)
  | wipe (block eraseMode : QString) (tearDown : Bool)
  deriving DecidableEq, Repr

/-- A background task started by `runOp`, with the lines its completion handler
captured. -/
structure Worker where
  okLine : QString
  failPrefix : QString
  op : Op
  deriving DecidableEq, Repr

/-- `MainWindow::OpResult`. -/
structure OpResult where
  ok : Bool
  error : QString
  deriving DecidableEq, Repr

/-- The members of `MainWindow` and the state of its widgets and timers.
`enumerations` counts the calls of `listUsbRemovable` made so far. -/
structure MainWindow where
  items : List Item := []
  current : Option Nat := none
  confirmText : QString := []
  busy : Bool := false
  pollActive : Bool := false
  debounceActive : Bool := false
  refreshBtnEnabled : Bool := true
  listEnabled : Bool := true
  fsComboEnabled : Bool := true
  labelEditEnabled : Bool := true
  tearDownCheckEnabled : Bool := true
  confirmEditEnabled : Bool := true
  formatBtnEnabled : Bool := true
  wipeQuickBtnEnabled : Bool := true
  wipeFullBtnEnabled : Bool := true
  formatBtnToolTip : QString := []
  wipeQuickBtnToolTip : QString := []
  wipeFullBtnToolTip : QString := []
  progress : Option QString := none
  log : List QString := []
  lastAutoError : QString := []
  lastDeviceNodes : List QString := []
  workers : List Worker := []
  enumerations : Nat := 0
  deriving DecidableEq, Repr

/-- `list_->currentItem()`. -/
def MainWindow.currentItem (w : MainWindow) : Option Item :=
  match w.current with
  | none => none
  | some i => w.items.get? i

/-- `MainWindow::appendLog`. -/
def MainWindow.appendLog (w : MainWindow) (line : QString) : MainWindow :=
  { w with log := w.log ++ [line] }

/-- `MainWindow::selectedBlockObject`. -/
def MainWindow.selectedBlockObject (w : MainWindow) : QString :=
  match w.currentItem with
  | none => []
  | some item => item.blockObject

/-- `MainWindow::selectedDeviceNode`. -/
def MainWindow.selectedDeviceNode (w : MainWindow) : QString :=
  match w.currentItem with
  | none => []
  | some item => item.deviceNode

/-- `MainWindow::selectedReadOnly`. -/
def MainWindow.selectedReadOnly (w : MainWindow) : Bool :=
  match w.currentItem with
  | none => false
  | some item => item.readOnly

/-- `MainWindow::updateActionEnablement`. -/
def MainWindow.updateActionEnablement (w : MainWindow) : MainWindow :=
  let dev := w.selectedDeviceNode
  let hasSel := !dev.isEmpty
  let confirmOk := hasSel && (trimmed w.confirmText == dev)
  let ro := w.selectedReadOnly
  let tip : QString := if ro then qs "Device is read-only" else []
  { w with
    formatBtnEnabled := hasSel && confirmOk && !ro
    wipeQuickBtnEnabled := hasSel && confirmOk && !ro
    wipeFullBtnEnabled := hasSel && confirmOk && !ro
    formatBtnToolTip := tip
    wipeQuickBtnToolTip := tip
    wipeFullBtnToolTip := tip }

/-- `MainWindow::onConfirmChanged`. -/
def MainWindow.onConfirmChanged (w : MainWindow) : MainWindow :=
  w.updateActionEnablement

/-- `confirmEdit_->setText(t)`, with the `textChanged` slot it triggers. -/
def MainWindow.setConfirmText (w : MainWindow) (t : QString) : MainWindow :=
  if w.confirmText = t then w else ({ w with confirmText := t }).onConfirmChanged

/-- `MainWindow::onSelectionChanged`. -/
def MainWindow.onSelectionChanged (w : MainWindow) : MainWindow :=
  let dev := w.selectedDeviceNode
  (w.setConfirmText dev).updateActionEnablement

/-- `MainWindow::setBusy`. -/
def MainWindow.setBusy (w : MainWindow) (busy : Bool) (statusLine : QString) : MainWindow :=
  let w := { w with busy := busy }
  let w := if busy then { w with pollActive := false } else { w with pollActive := true }
  let w := if busy then { w with debounceActive := false } else w
  let w := { w with
    refreshBtnEnabled := !busy
    listEnabled := !busy
    fsComboEnabled := !busy
    labelEditEnabled := !busy
    tearDownCheckEnabled := !busy
    confirmEditEnabled := !busy
    formatBtnEnabled := false
    wipeQuickBtnEnabled := false
    wipeFullBtnEnabled := false }
  if busy then
    { w with progress := some (if statusLine.isEmpty then qs "Working..." else statusLine) }
  else
    ({ w with progress := none }).updateActionEnablement

/-- `MainWindow::runOp`, up to the start of the background task. -/
def MainWindow.runOp (w : MainWindow) (startLine okLine failPrefix : QString) (fn : Op) :
    MainWindow :=
  if w.busy then w
  else
    let w := w.appendLog startLine
    let w := w.setBusy true startLine
    { w with workers := w.workers ++ [{ okLine := okLine, failPrefix := failPrefix, op := fn }] }

/-- `MainWindow::onUDisksInterfacesAdded`. -/
def MainWindow.onUDisksInterfacesAdded (w : MainWindow) : MainWindow :=
  { w with debounceActive := true }

/-- `MainWindow::onUDisksInterfacesRemoved`. -/
def MainWindow.onUDisksInterfacesRemoved (w : MainWindow) : MainWindow :=
  { w with debounceActive := true }

/-- The row built for a record by `refreshDevicesImpl`. -/
def itemOf (d : UsbDevice) : Item :=
  { blockObject := d.blockObject, deviceNode := d.deviceNode, readOnly := d.readOnly }

/-- The error bookkeeping of `refreshDevicesImpl` (`MainWindow.cpp` lines 286-305). -/
def MainWindow.noteError (w : MainWindow) (verbose : Bool) (err : QString) : MainWindow :=
  let noUsbInfo :=
    startsWith err (qs "UDisks2 reachable, but filter returned 0 USB whole-disk devices")
  if !err.isEmpty then
    if verbose then
      w.appendLog ((if noUsbInfo then qs "INFO: " else qs "ERROR: ") ++ err)
    else if noUsbInfo then
      if !w.lastAutoError.isEmpty then { w with lastAutoError := [] } else w
    else if err != w.lastAutoError then
      { (w.appendLog (qs "ERROR: " ++ err)) with lastAutoError := err }
    else w
  else if !w.lastAutoError.isEmpty then { w with lastAutoError := [] } else w

/-- `list_->clear()`: the selection is cleared first (the slot runs while the
current row is still set), then the rows are removed. -/
def MainWindow.clearList (w : MainWindow) : MainWindow :=
  let w := if w.currentItem.isSome then w.onSelectionChanged else w
  { w with items := [], current := none }

/-- The loop of `refreshDevicesImpl` that fills `list_` (`MainWindow.cpp` lines
307-324). -/
def MainWindow.populate (w : MainWindow) (devices : List UsbDevice) : MainWindow :=
  { w with items := devices.map itemOf }

/-- Re-selection of the previously selected device (`MainWindow.cpp` lines
326-335): the first row with that device node becomes the current row. -/
def MainWindow.reselect (w : MainWindow) (prevDev : QString) : MainWindow :=
  if !prevDev.isEmpty then
    match w.items.findIdx? (fun it => it.deviceNode == prevDev) with
    | some i => ({ w with current := some i }).onSelectionChanged
    | none => w
  else w

/-- The device-count logging of `refreshDevicesImpl` (`MainWindow.cpp` lines
337-344). -/
def MainWindow.noteDevices (w : MainWindow) (verbose : Bool) (devices : List UsbDevice) :
    MainWindow :=
  let curDevs := devices.map (fun d => d.deviceNode)
  if verbose then
    w.appendLog (qs "Found " ++ decimal devices.length ++ qs " USB device(s).")
  else if curDevs != w.lastDeviceNodes then
    { (w.appendLog (qs "Auto: now " ++ decimal devices.length ++ qs " USB device(s) detected."))
      with lastDeviceNodes := curDevs }
  else w

/-- The call `udisks_->listUsbRemovable(&err)`, counted. -/
def MainWindow.countEnumeration (w : MainWindow) : MainWindow :=
  { w with enumerations := w.enumerations + 1 }

/-- `MainWindow::refreshDevicesImpl(verbose)`, given what
`udisks_->listUsbRemovable(&err)` returns: the records and `err`. -/
def MainWindow.refreshDevicesImpl (w : MainWindow) (verbose : Bool)
    (found : List UsbDevice × QString) : MainWindow :=
  let prevDev := w.selectedDeviceNode
  let w := w.clearList
  let w := w.countEnumeration
  let w := w.noteError verbose found.2
  let w := w.populate found.1
  let w := w.reselect prevDev
  let w := w.noteDevices verbose found.1
  w.updateActionEnablement

/-- `MainWindow::refreshDevices`. -/
def MainWindow.refreshDevices (w : MainWindow) (found : List UsbDevice × QString) : MainWindow :=
  w.refreshDevicesImpl true found

/-- `MainWindow::refreshDevicesSilent`. -/
def MainWindow.refreshDevicesSilent (w : MainWindow) (found : List UsbDevice × QString) :
    MainWindow :=
  w.refreshDevicesImpl false found

/-- The completion handler installed by `runOp`, for the oldest running task. -/
def MainWindow.onFinished (w : MainWindow) (r : OpResult)
    (found : List UsbDevice × QString) : MainWindow :=
  match w.workers with
  | [] => w
  | task :: rest =>
    let w := { w with workers := rest }
    let w := w.setBusy false []
    let w := if r.ok then w.appendLog task.okLine else w.appendLog (task.failPrefix ++ r.error)
    w.refreshDevices found

/-- The window at the end of the constructor: the poll timer runs, the debounce
timer does not, and one verbose refresh has been done. -/
def MainWindow.initial (found : List UsbDevice × QString) : MainWindow :=
  ({ pollActive := true } : MainWindow).refreshDevices found

/-- The events of the scheduler and watcher: a submitted operation, a poll tick,
an add or remove notification of the service, the expiry of the debounce timer,
and the completion of the running operation.  Enumerating events carry what
`listUsbRemovable` returns at that moment. -/
inductive Event where
  | submit (startLine okLine failPrefix : QString) (fn : Op)
  | pollTick (found : List UsbDevice × QString)
  | interfacesAdded
  | interfacesRemoved
  | debounceExpiry (found : List UsbDevice × QString)
  | completion (r : OpResult) (found : List UsbDevice × QString)

/-- The effect of an event on the window.  A timer fires only while it is
active; the debounce timer is single-shot. -/
def MainWindow.step (w : MainWindow) : Event → MainWindow
  | Event.submit startLine okLine failPrefix fn => w.runOp startLine okLine failPrefix fn
  | Event.pollTick found => if w.pollActive then w.refreshDevicesSilent found else w
  | Event.interfacesAdded => w.onUDisksInterfacesAdded
  | Event.interfacesRemoved => w.onUDisksInterfacesRemoved
  | Event.debounceExpiry found =>
    if w.debounceActive then ({ w with debounceActive := false }).refreshDevicesSilent found
    else w
  | Event.completion r found => w.onFinished r found

/-- The window after a sequence of events. -/
def MainWindow.run (w : MainWindow) (events : List Event) : MainWindow :=
  events.foldl MainWindow.step w

/-! ## Notions used to state the properties -/

/-- The drive of a block, when its `Drive` link can be read and names a drive
(neither empty nor the root path `/`). -/
def driveOf (B : Backend σ) (st : σ) (blockObject : QString) : Option QString :=
  let driveVar := getProp B st blockObject kBlockIface (qs "Drive")
  if driveVar.2 ∧ driveVar.1.toObjectPath ≠ [] ∧ driveVar.1.toObjectPath ≠ qs "/" then
    some driveVar.1.toObjectPath
  else none

/-- The blocks returned by `GetBlockDevices`, when the manager can be asked. -/
def listedBlocks (B : Backend σ) (st : σ) : List QString :=
  if B.isValid st kManagerPath kManagerIface then
    match B.getBlockDevices st with
    | Reply.value blocks => blocks
    | Reply.error _ => []
  else []

/-- The partition number of a block, when `Partition.Number` can be read. -/
def partitionNumber (B : Backend σ) (st : σ) (p : QString) : Option Int :=
  let numVar := getProp B st p kPartitionIface (qs "Number")
  if numVar.2 then some numVar.1.toInt else none

/-- Block `p` is a sibling of `b`: its `Drive` link can be read and equals the
drive of `b`. -/
def IsSibling (B : Backend σ) (st : σ) (b p : QString) : Prop :=
  (getProp B st p kBlockIface (qs "Drive")).2 = true ∧
  driveOf B st b = some (getProp B st p kBlockIface (qs "Drive")).1.toObjectPath

/-- Block `p` is a sibling of `b` exposing the partition number `n`. -/
def IsPartitionOf (B : Backend σ) (st : σ) (b p : QString) (n : Int) : Prop :=
  IsSibling B st b p ∧ partitionNumber B st p = some n

/-- The scheduling part of the window state: busy flag, the two timers and the
running tasks. -/
def MainWindow.sched (w : MainWindow) : Bool × Bool × Bool × List Worker :=
  (w.busy, w.pollActive, w.debounceActive, w.workers)

/-- Single flight: while `busy_` is set exactly one task runs and the poll timer
is stopped; while it is not set no task runs. -/
def SingleFlight (w : MainWindow) : Prop :=
  (w.busy = true → w.pollActive = false ∧ w.workers.length = 1) ∧
  (w.busy = false → w.workers = [])

/-- Block `p` exposes the filesystem interface (its `MountPoints` can be read). -/
def hasFilesystem (B : Backend σ) (st : σ) (p : QString) : Bool :=
  (getProp B st p kFilesystemIface (qs "MountPoints")).2

/-- Two states of the service agree on what `unmountAllOnSameDrive` looks at:
the `Drive` link of every block, which blocks expose the filesystem interface,
the validity of the manager and the block listing.  Everything else, the value
of `MountPoints` included, may differ. -/
def SameLinks (B : Backend σ) (s1 s2 : σ) : Prop :=
  (∀ o, getProp B s1 o kBlockIface (qs "Drive") = getProp B s2 o kBlockIface (qs "Drive")) ∧
  (∀ o, hasFilesystem B s1 o = hasFilesystem B s2 o) ∧
  B.isValid s1 kManagerPath kManagerIface = B.isValid s2 kManagerPath kManagerIface ∧
  B.getBlockDevices s1 = B.getBlockDevices s2

/-- Unmounting a filesystem changes neither the `Drive` links, nor which blocks
expose the filesystem interface, nor the block listing. -/
def UnmountKeepsLinks (B : Backend σ) : Prop :=
  ∀ (st : σ) (p : QString), SameLinks B (B.unmount st p).2 st

/-- The listed blocks whose `Drive` link can be read and equals the drive of
`b`, in the order of the listing. -/
def sameDriveBlocks (B : Backend σ) (st : σ) (b : QString) : List QString :=
  match driveOf B st b with
  | none => []
  | some drivePath =>
    (listedBlocks B st).filter (fun p =>
      (getProp B st p kBlockIface (qs "Drive")).2 &&
      (getProp B st p kBlockIface (qs "Drive")).1.toObjectPath == drivePath)

/-- Invariant of the loop of `pickPrimaryPartitionBlock` after the blocks `seen`. -/
def PickInv (B : Backend σ) (st : σ) (b : QString) (seen : List QString)
    (best : Int × QString) : Prop :=
  best.1 ≤ intMax ∧
  (∀ q ∈ seen, ∀ n, IsPartitionOf B st b q n → 0 < n → best.1 ≤ n) ∧
  ((best = (intMax, []) ∧ ∀ q ∈ seen, ∀ n, IsPartitionOf B st b q n → 0 < n → intMax ≤ n) ∨
   (best.2 ∈ seen ∧ IsPartitionOf B st b best.2 best.1 ∧ 0 < best.1 ∧ best.1 < intMax))

/-! ## A test double of the service

A table-driven service used to evaluate the client on concrete scenarios.  Its
state is the list of block objects whose filesystem is currently mounted:
`Unmount` succeeds on a mounted filesystem and answers "not mounted" otherwise. -/

/-- One block object of the test service. -/
structure TestBlock where
  path : QString
  drive : QString
  partitionNumber : Option Nat := none
  hasFilesystem : Bool := false
  preferredDevice : QByteArray := []
  hintSystem : Bool := false
  hintIgnore : Bool := false
  busy : Bool := false

/-- Object path of a block device of the test service. -/
def blockPath (name : String) : QString := qs "/org/freedesktop/UDisks2/block_devices/" ++ qs name

/-- The drive object of the test service, reached over USB. -/
def usbDrive : QString := qs "/org/freedesktop/UDisks2/drives/Stick"

/-- Property table of the test service. -/
def testGet (blocks : List TestBlock) (path iface prop : QString) : Reply QVariant :=
  let missing : Reply QVariant :=
    Reply.error { name := qs "org.freedesktop.DBus.Error.InvalidArgs", message := qs "No such property" }
  if path == usbDrive ∧ iface == kDriveIface then
    if prop == qs "ConnectionBus" then Reply.value (QVariant.string (qs "usb"))
    else if prop == qs "Vendor" ∨ prop == qs "Model" ∨ prop == qs "Serial" then
      Reply.value (QVariant.string [])
    else missing
  else
    match blocks.find? (fun b => b.path == path) with
    | none => missing
    | some b =>
      if iface == kBlockIface then
        if prop == qs "Drive" then Reply.value (QVariant.objectPath b.drive)
        else if prop == qs "PreferredDevice" ∨ prop == qs "Device" then
          Reply.value (QVariant.byteArray b.preferredDevice)
        else if prop == qs "HintSystem" then Reply.value (QVariant.bool b.hintSystem)
        else if prop == qs "HintIgnore" then Reply.value (QVariant.bool b.hintIgnore)
        else if prop == qs "Size" then Reply.value (QVariant.uint 0)
        else if prop == qs "ReadOnly" then Reply.value (QVariant.bool false)
        else missing
      else if iface == kPartitionIface ∧ prop == qs "Number" then
        match b.partitionNumber with
        | some n => Reply.value (QVariant.uint n)
        | none => missing
      else if iface == kFilesystemIface ∧ prop == qs "MountPoints" then
        if b.hasFilesystem then Reply.value (QVariant.byteArray []) else missing
      else missing

/-- Reply of `Unmount` in the test service. -/
def testUnmount (blocks : List TestBlock) (mounted : List QString) (path : QString) :
    Reply Unit × List QString :=
  if (blocks.find? (fun b => b.path == path)).any (fun b => b.busy) then
    (Reply.error { name := qs "org.freedesktop.UDisks2.Error.DeviceBusy",
                   message := qs "target is busy" }, mounted)
  else if mounted.contains path then (Reply.value (), mounted.filter (fun p => p != path))
  else (Reply.error { name := qs "org.freedesktop.UDisks2.Error.NotMounted",
                      message := qs "Device is not mounted" }, mounted)

/-- The test service over a table of blocks; `reachable` is the answer of every
`isValid()`. -/
def testBackend (blocks : List TestBlock) (reachable : Bool) : Backend (List QString) where
  isValid := fun _ _ _ => reachable
  get := fun _ path iface prop => testGet blocks path iface prop
  getBlockDevices := fun _ => Reply.value (blocks.map (fun b => b.path))
  unmount := fun mounted path => testUnmount blocks mounted path
  format := fun mounted _ _ _ => (Reply.value (), mounted)
  rescan := fun mounted _ => mounted
  fromLocal8Bit := fun bs => bs.map Char.ofNat

/-- A service without state over a table of blocks, on which every `Unmount`
succeeds. -/
def lenientBackend (blocks : List TestBlock) : Backend Unit where
  isValid := fun _ _ _ => true
  get := fun _ path iface prop => testGet blocks path iface prop
  getBlockDevices := fun _ => Reply.value (blocks.map (fun b => b.path))
  unmount := fun _ _ => (Reply.value (), ())
  format := fun _ _ _ _ => (Reply.value (), ())
  rescan := fun _ _ => ()
  fromLocal8Bit := fun bs => bs.map Char.ofNat

/-- Bytes of an ASCII string, with the terminating NUL UDisks2 appends. -/
def cstr (s : String) : QByteArray := s.data.map Char.toNat ++ [0]

/-- The test service with mount points: `MountPoints` of a block with a
filesystem holds `/media/stick` while the filesystem is mounted and is empty
afterwards. -/
def mountingBackend (blocks : List TestBlock) : Backend (List QString) where
  isValid := fun _ _ _ => true
  get := fun mounted path iface prop =>
    if iface == kFilesystemIface ∧ prop == qs "MountPoints" ∧ mounted.contains path then
      match testGet blocks path iface prop with
      | Reply.value _ => Reply.value (QVariant.byteArray (cstr "/media/stick"))
      | Reply.error e => Reply.error e
    else testGet blocks path iface prop
  getBlockDevices := fun _ => Reply.value (blocks.map (fun b => b.path))
  unmount := fun mounted path => testUnmount blocks mounted path
  format := fun mounted _ _ _ => (Reply.value (), mounted)
  rescan := fun mounted _ => mounted
  fromLocal8Bit := fun bs => bs.map Char.ofNat

/-- A stick whose preferred device node is reported as `/dev/sdb` followed by a
line feed. -/
def scenarioNewline : List TestBlock :=
  [{ path := blockPath "sdb", drive := usbDrive, hasFilesystem := true,
     preferredDevice := cstr "/dev/sdb\n" }]

/-- A stick `/dev/sdb` whose partition `/dev/sdb1` is in use and refuses to be
unmounted. -/
def scenarioBusy : List TestBlock :=
  [{ path := blockPath "sdb", drive := usbDrive, hasFilesystem := true,
     preferredDevice := cstr "/dev/sdb" },
   { path := blockPath "sdb1", drive := usbDrive, partitionNumber := some 1,
     hasFilesystem := true, preferredDevice := cstr "/dev/sdb1", busy := true }]

/-- The error with which the test service refuses to unmount a busy block. -/
def busyError : DBusError :=
  { name := qs "org.freedesktop.UDisks2.Error.DeviceBusy", message := qs "target is busy" }

/-- A stick `/dev/sdb` whose only partition `/dev/sdb1` carries the partition
number 2147483647. -/
def scenarioMaxNumber : List TestBlock :=
  [{ path := blockPath "sdb", drive := usbDrive, preferredDevice := cstr "/dev/sdb" },
   { path := blockPath "sdb1", drive := usbDrive, partitionNumber := some 2147483647,
     hasFilesystem := true, preferredDevice := cstr "/dev/sdb1" }]

/-- A stick `/dev/sdb` with partitions numbered 3, 1 and 2, listed in that order. -/
def scenarioThree : List TestBlock :=
  [{ path := blockPath "sdb", drive := usbDrive, preferredDevice := cstr "/dev/sdb" },
   { path := blockPath "sdb3", drive := usbDrive, partitionNumber := some 3,
     hasFilesystem := true, preferredDevice := cstr "/dev/sdb3" },
   { path := blockPath "sdb1", drive := usbDrive, partitionNumber := some 1,
     hasFilesystem := true, preferredDevice := cstr "/dev/sdb1" },
   { path := blockPath "sdb2", drive := usbDrive, partitionNumber := some 2,
     hasFilesystem := true, preferredDevice := cstr "/dev/sdb2" }]

/-- Scenario A: a stick `/dev/sdb` without partitions, mounted directly. -/
def scenarioA : List TestBlock :=
  [{ path := blockPath "sdb", drive := usbDrive, hasFilesystem := true,
     preferredDevice := cstr "/dev/sdb" }]

/-- Scenario B: a stick `/dev/sdb` with one partition `/dev/sdb1`; both block
objects expose a filesystem. -/
def scenarioB : List TestBlock :=
  [{ path := blockPath "sdb", drive := usbDrive, hasFilesystem := true,
     preferredDevice := cstr "/dev/sdb" },
   { path := blockPath "sdb1", drive := usbDrive, partitionNumber := some 1,
     hasFilesystem := true, preferredDevice := cstr "/dev/sdb1" }]

/-- The window as constructed over scenario B. -/
def constructedWindow : MainWindow :=
  MainWindow.initial (listUsbRemovable (testBackend scenarioB true) [])

/-- The window of the examples: built over scenario B, with the row of
`/dev/sdb` selected and its node typed as confirmation. -/
def exampleWindow : MainWindow :=
  { constructedWindow with current := some 0, confirmText := qs " /dev/sdb " }

/-- The operation submitted in the examples. -/
def exampleOp : Op := Op.format (blockPath "sdb") (qs "vfat") (qs "MYUSB") true

/-- The submission of `exampleOp` by `doFormat`. -/
def exampleSubmit : Event :=
  Event.submit (qs "Formatting /dev/sdb (vfat)...") (qs "OK: format complete.") (qs "ERROR: ")
    exampleOp

/-- What `listUsbRemovable` returns once the stick is gone: no record and the
diagnostic with the counters. -/
def foundNothing : List UsbDevice × QString := listUsbRemovable (testBackend [] true) []

/-- The selected row of `exampleWindow`. -/
def exampleItem : Item :=
  { blockObject := blockPath "sdb", deviceNode := qs "/dev/sdb", readOnly := false }

/-- The codec of the examples: every byte decodes to the character with that
code (ISO 8859-1). -/
def latin1 (bs : QByteArray) : QString := bs.map Char.ofNat

/-- The error with which the test service answers `Unmount` on a filesystem
that is not mounted. -/
def notMountedError : DBusError :=
  { name := qs "org.freedesktop.UDisks2.Error.NotMounted", message := qs "Device is not mounted" }

/-- The record `listUsbRemovable` appends for a listed block, if any. -/
def acceptedRecord (B : Backend σ) (st : σ) (p : QString) : Option UsbDevice :=
  match classifyBlock B st p with
  | Verdict.accept d => some d
  | _ => none

/-- A reply lost in transport. -/
def transportError : DBusError :=
  { name := qs "org.freedesktop.DBus.Error.NoReply", message := qs "Did not receive a reply" }

/-- The test service with transport failures: reads of the listed
(object, interface, property) triples are answered with `transportError`. -/
def faultyBackend (blocks : List TestBlock) (faults : List (QString × QString × QString)) :
    Backend (List QString) where
  isValid := fun _ _ _ => true
  get := fun _ path iface prop =>
    if faults.contains (path, iface, prop) then Reply.error transportError
    else testGet blocks path iface prop
  getBlockDevices := fun _ => Reply.value (blocks.map (fun b => b.path))
  unmount := fun mounted path => testUnmount blocks mounted path
  format := fun mounted _ _ _ => (Reply.value (), mounted)
  rescan := fun mounted _ => mounted
  fromLocal8Bit := fun bs => bs.map Char.ofNat

/-- A USB disk `/dev/sdb` that the service marks as a system disk. -/
def scenarioSystem : List TestBlock :=
  [{ path := blockPath "sdb", drive := usbDrive, preferredDevice := cstr "/dev/sdb",
     hintSystem := true }]

/-- The read of `HintSystem` on `sdb`. -/
def hintSystemRead : QString × QString × QString :=
  (blockPath "sdb", kBlockIface, qs "HintSystem")

/-- The read of `Partition.Number` on the partition `sdb1`. -/
def partitionNumberRead : QString × QString × QString :=
  (blockPath "sdb1", kPartitionIface, qs "Number")

/-- The error with which the test service answers a read of a property or
interface the object does not have. -/
def missingError : DBusError :=
  { name := qs "org.freedesktop.DBus.Error.InvalidArgs", message := qs "No such property" }

/-! ## Notions used to state the logging properties -/

/-- The logging part of the window state: the log, the remembered error and the
remembered device nodes. -/
def MainWindow.journal (w : MainWindow) : List QString × QString × List QString :=
  (w.log, w.lastAutoError, w.lastDeviceNodes)

/-- The classification of an enumeration message as the informational
"zero devices" diagnostic (`noUsbInfo` in `refreshDevicesImpl`). -/
def noUsbInfo (err : QString) : Bool :=
  startsWith err (qs "UDisks2 reachable, but filter returned 0 USB whole-disk devices")

/-- The lines a refresh logs for the enumeration message `err`. -/
def errorLog (verbose : Bool) (lastAutoError err : QString) : List QString :=
  if err = [] then []
  else if verbose then [(if noUsbInfo err then qs "INFO: " else qs "ERROR: ") ++ err]
  else if noUsbInfo err then []
  else if err ≠ lastAutoError then [qs "ERROR: " ++ err]
  else []

/-- The error a refresh leaves remembered. -/
def nextAutoError (verbose : Bool) (lastAutoError err : QString) : QString :=
  if err = [] then []
  else if verbose then lastAutoError
  else if noUsbInfo err then []
  else err

/-- The device nodes of the records, in order. -/
def deviceNodes (devices : List UsbDevice) : List QString :=
  devices.map (fun d => d.deviceNode)

/-- The line a refresh logs about the devices found, given the remembered
snapshot of device nodes. -/
def deviceLog (verbose : Bool) (snapshot : List QString) (devices : List UsbDevice) :
    List QString :=
  if verbose then [qs "Found " ++ decimal devices.length ++ qs " USB device(s)."]
  else if deviceNodes devices ≠ snapshot then
    [qs "Auto: now " ++ decimal devices.length ++ qs " USB device(s) detected."]
  else []

/-- The snapshot of device nodes a refresh leaves remembered. -/
def nextSnapshot (verbose : Bool) (snapshot : List QString) (devices : List UsbDevice) :
    List QString :=
  if verbose then snapshot else deviceNodes devices

/-- A sequence of refreshes, each verbose (`true`) or silent (`false`), with what
`listUsbRemovable` returned to it. -/
def MainWindow.runRefreshes (w : MainWindow) (hs : List (Bool × (List UsbDevice × QString))) :
    MainWindow :=
  hs.foldl (fun v h => v.refreshDevicesImpl h.1 h.2) w

/-- The device nodes enumerated by the most recent silent refresh of a sequence,
`init` when there was none. -/
def silentSnapshot (init : List QString) (hs : List (Bool × (List UsbDevice × QString))) :
    List QString :=
  hs.foldl (fun s h => nextSnapshot h.1 s h.2.1) init

/-- The number of listed blocks that the loop of `listUsbRemovable` classifies
as `v`. -/
def countVerdict (B : Backend σ) (st : σ) (blocks : List QString) (v : Verdict) : Nat :=
  blocks.countP (fun p => classifyBlock B st p == v)

/-- The window before the refresh of the constructor: poll timer started,
nothing logged, nothing remembered. -/
def freshWindow : MainWindow := { pollActive := true }

/-- What `listUsbRemovable` returns for scenario B: the record of `/dev/sdb`. -/
def foundStick : List UsbDevice × QString := listUsbRemovable (testBackend scenarioB true) []

/-- What `listUsbRemovable` returns when the service cannot be reached. -/
def foundUnreachable : List UsbDevice × QString := listUsbRemovable (testBackend [] false) []

/-! ## The whole-disk classifier -/

theorem matchPlus_iff (p : Char → Bool) (k : QString → Bool) (s : QString) :
    matchPlus p k s = true ↔
      ∃ l r : QString, l ≠ [] ∧ (∀ c ∈ l, p c = true) ∧ s = l ++ r ∧ k r = true := by
  induction s with
  | nil =>
    simp only [matchPlus]
    constructor
    · intro h; cases h
    · rintro ⟨l, r, hl, -, hs, -⟩
      cases l with
      | nil => exact absurd rfl hl
      | cons a t => cases hs
  | cons c cs ih =>
    simp only [matchPlus, Bool.and_eq_true, Bool.or_eq_true, ih]
    constructor
    · rintro ⟨hc, h | h⟩
      · obtain ⟨l, r, -, hall, hs, hk⟩ := h
        refine ⟨c :: l, r, by simp, ?_, by simp [hs], hk⟩
        intro d hd
        rcases List.mem_cons.1 hd with rfl | hd
        · exact hc
        · exact hall d hd
      · exact ⟨[c], cs, by simp, by simpa using hc, by simp, h⟩
    · rintro ⟨l, r, hl, hall, hs, hk⟩
      cases l with
      | nil => exact absurd rfl hl
      | cons a t =>
        simp only [List.cons_append, List.cons.injEq] at hs
        obtain ⟨rfl, rfl⟩ := hs
        refine ⟨hall _ (by simp), ?_⟩
        cases t with
        | nil => right; simpa using hk
        | cons b u =>
          left
          exact ⟨b :: u, r, by simp, fun d hd => hall d (List.mem_cons_of_mem _ hd), rfl, hk⟩

theorem searchFrom_bol_false (r : List Atom) (s : QString) :
    searchFrom (Atom.bol :: r) false s = false := by
  induction s with
  | nil => simp [searchFrom, matchHere]
  | cons c cs ih => simp [searchFrom, matchHere, ih]

theorem containsRe_bol (r : List Atom) (s : QString) :
    containsRe s (Atom.bol :: r) = matchHere r true s := by
  cases s with
  | nil => simp [containsRe, searchFrom, matchHere]
  | cons c cs => simp [containsRe, searchFrom, matchHere, searchFrom_bol_false]

theorem matchHere_eol (b : Bool) (r : QString) :
    matchHere [Atom.eol] b r = true ↔ AtDollar r := by
  simp [matchHere, AtDollar]

theorem matchHere_chr (c : Char) (re : List Atom) (b : Bool) (s : QString) :
    matchHere (Atom.chr c :: re) b s = true ↔ ∃ t, s = c :: t ∧ matchHere re false t = true := by
  cases s with
  | nil => simp [matchHere]
  | cons d t =>
    simp only [matchHere, Bool.and_eq_true, beq_iff_eq, List.cons.injEq]
    constructor
    · rintro ⟨rfl, h⟩; exact ⟨t, ⟨rfl, rfl⟩, h⟩
    · rintro ⟨u, ⟨rfl, rfl⟩, h⟩; exact ⟨rfl, h⟩

theorem matchHere_plus (cls : CharClass) (re : List Atom) (b : Bool) (s : QString) :
    matchHere (Atom.plus cls :: re) b s = true ↔
      ∃ l r : QString, l ≠ [] ∧ (∀ c ∈ l, cls.mem c = true) ∧ s = l ++ r ∧
        matchHere re false r = true := by
  simp only [matchHere]
  exact matchPlus_iff _ _ _

theorem containsRe_reSd (s : QString) :
    containsRe s reSd = true ↔
      ∃ l r : QString, l ≠ [] ∧ (∀ c ∈ l, CharClass.lower.mem c = true) ∧
        s = qs "sd" ++ l ++ r ∧ AtDollar r := by
  simp only [reSd, containsRe_bol, matchHere_chr, matchHere_plus, matchHere_eol]
  constructor
  · rintro ⟨t1, rfl, t2, rfl, l, r, hl, hall, rfl, hr⟩
    exact ⟨l, r, hl, hall, rfl, hr⟩
  · rintro ⟨l, r, hl, hall, rfl, hr⟩
    exact ⟨_, rfl, _, rfl, l, r, hl, hall, rfl, hr⟩

theorem containsRe_reMmcblk (s : QString) :
    containsRe s reMmcblk = true ↔
      ∃ a r : QString, a ≠ [] ∧ (∀ c ∈ a, CharClass.digit.mem c = true) ∧
        s = qs "mmcblk" ++ a ++ r ∧ AtDollar r := by
  simp only [reMmcblk, containsRe_bol, matchHere_chr, matchHere_plus, matchHere_eol]
  constructor
  · rintro ⟨_, rfl, _, rfl, _, rfl, _, rfl, _, rfl, _, rfl, a, r, ha, hall, rfl, hr⟩
    exact ⟨a, r, ha, hall, rfl, hr⟩
  · rintro ⟨a, r, ha, hall, rfl, hr⟩
    exact ⟨_, rfl, _, rfl, _, rfl, _, rfl, _, rfl, _, rfl, a, r, ha, hall, rfl, hr⟩

theorem containsRe_reNvme (s : QString) :
    containsRe s reNvme = true ↔
      ∃ a b r : QString, a ≠ [] ∧ b ≠ [] ∧ (∀ c ∈ a, CharClass.digit.mem c = true) ∧
        (∀ c ∈ b, CharClass.digit.mem c = true) ∧
        s = qs "nvme" ++ a ++ qs "n" ++ b ++ r ∧ AtDollar r := by
  simp only [reNvme, containsRe_bol, matchHere_chr, matchHere_plus, matchHere_eol]
  constructor
  · rintro ⟨_, rfl, _, rfl, _, rfl, _, rfl, a, _, ha, halla, rfl, _, rfl, b, r, hb, hallb, rfl, hr⟩
    exact ⟨a, b, r, ha, hb, halla, hallb, by simp [qs], hr⟩
  · rintro ⟨a, b, r, ha, hb, halla, hallb, rfl, hr⟩
    exact ⟨_, rfl, _, rfl, _, rfl, _, rfl, a, _, ha, halla, by simp [qs], _, rfl, b, r, hb,
      hallb, rfl, hr⟩

/-- Exact description of the classifier: it accepts the strings of the grammar
and the strings of the grammar followed by one final line feed. -/
theorem isWholeDisk_iff (s : QString) :
    isWholeDisk s = true ↔ ∃ t r : QString, s = t ++ r ∧ AtDollar r ∧ WholeDiskGrammar t := by
  simp only [isWholeDisk, Bool.or_eq_true, containsRe_reSd, containsRe_reNvme,
    containsRe_reMmcblk, WholeDiskGrammar]
  constructor
  · rintro ((⟨l, r, hl, hall, rfl, hr⟩ | ⟨a, b, r, ha, hb, halla, hallb, rfl, hr⟩) |
      ⟨a, r, ha, hall, rfl, hr⟩)
    · exact ⟨_, r, rfl, hr, Or.inl ⟨l, hl, hall, rfl⟩⟩
    · exact ⟨_, r, rfl, hr, Or.inr (Or.inl ⟨a, b, ha, hb, halla, hallb, rfl⟩)⟩
    · exact ⟨_, r, rfl, hr, Or.inr (Or.inr ⟨a, ha, hall, rfl⟩)⟩
  · rintro ⟨t, r, rfl, hr, (⟨l, hl, hall, rfl⟩ | ⟨a, b, ha, hb, halla, hallb, rfl⟩ |
      ⟨a, ha, hall, rfl⟩)⟩
    · exact Or.inl (Or.inl ⟨l, r, hl, hall, rfl, hr⟩)
    · exact Or.inl (Or.inr ⟨a, b, r, ha, hb, halla, hallb, rfl, hr⟩)
    · exact Or.inr ⟨a, r, ha, hall, rfl, hr⟩

/-- Every string of the grammar is accepted by the classifier. -/
theorem isWholeDisk_of_grammar (s : QString) (h : WholeDiskGrammar s) : isWholeDisk s = true :=
  (isWholeDisk_iff s).2 ⟨s, [], by simp, Or.inl rfl, h⟩

/-- A string of the grammar ends in a lower-case letter or a digit. -/
theorem WholeDiskGrammar.getLast (s : QString) (h : WholeDiskGrammar s) :
    ∃ c, s.getLast? = some c ∧ (CharClass.lower.mem c = true ∨ CharClass.digit.mem c = true) := by
  have key : ∀ (pre l : QString), l ≠ [] → ∃ c, (pre ++ l).getLast? = some c ∧ c ∈ l := by
    intro pre l hl
    refine ⟨l.getLast hl, ?_, List.getLast_mem hl⟩
    rw [List.getLast?_append_of_ne_nil _ hl, List.getLast?_eq_getLast _ hl]
  rcases h with ⟨l, hl, hall, rfl⟩ | ⟨a, b, ha, hb, halla, hallb, rfl⟩ | ⟨a, ha, hall, rfl⟩
  · obtain ⟨c, h1, h2⟩ := key (qs "sd") l hl
    exact ⟨c, h1, Or.inl (hall c h2)⟩
  · obtain ⟨c, h1, h2⟩ := key (qs "nvme" ++ a ++ qs "n") b hb
    exact ⟨c, h1, Or.inr (hallb c h2)⟩
  · obtain ⟨c, h1, h2⟩ := key (qs "mmcblk") a ha
    exact ⟨c, h1, Or.inr (hall c h2)⟩

/-- On strings that do not end in a line feed the classifier is the grammar. -/
theorem isWholeDisk_iff_grammar (s : QString) (h : s.getLast? ≠ some (Char.ofNat 10)) :
    isWholeDisk s = true ↔ WholeDiskGrammar s := by
  constructor
  · intro hs
    obtain ⟨t, r, rfl, hr | hr, ht⟩ := (isWholeDisk_iff _).1 hs
    · subst hr; simpa using ht
    · subst hr
      exact absurd (by simp) h
  · exact isWholeDisk_of_grammar s

/-- The examples of the specification are classified as it says. -/
theorem isWholeDisk_examples :
    isWholeDisk (qs "sdb") = true ∧ isWholeDisk (qs "sdaa") = true ∧
    isWholeDisk (qs "nvme0n1") = true ∧ isWholeDisk (qs "mmcblk0") = true ∧
    isWholeDisk (qs "sdb1") = false ∧ isWholeDisk (qs "nvme0n1p1") = false ∧
    isWholeDisk (qs "mmcblk0p1") = false := by
  decide

theorem not_grammar_of_final_newline (t : QString) :
    ¬ WholeDiskGrammar (t ++ [Char.ofNat 10]) := by
  intro h
  obtain ⟨c, hc, hcls⟩ := WholeDiskGrammar.getLast _ h
  have : c = Char.ofNat 10 := by
    simpa using hc.symm
  subst this
  revert hcls
  decide

/-- C2, at the basename `sdb` followed by a line feed: the classifier of
`listUsbRemovable` accepts it, although the whole string is not a full match of
`sd[a-z]+`, `nvme\d+n\d+` or `mmcblk\d+`. -/
theorem isWholeDisk_accepts_final_newline :
    isWholeDisk (qs "sdb\n") = true ∧ ¬ WholeDiskGrammar (qs "sdb\n") :=
  ⟨by decide, not_grammar_of_final_newline (qs "sdb")⟩

/-! ## Enumeration -/

theorem classifyBlock_accept (B : Backend σ) (st : σ) (p : QString) (d : UsbDevice)
    (h : classifyBlock B st p = Verdict.accept d) :
    d.blockObject = p ∧
    (getProp B st p kPartitionIface (qs "Number")).2 = false ∧
    (getProp B st p kBlockIface (qs "Drive")).2 = true ∧
    d.driveObject = (getProp B st p kBlockIface (qs "Drive")).1.toObjectPath ∧
    d.driveObject ≠ [] ∧ d.driveObject ≠ qs "/" ∧
    containsCI (getProp B st d.driveObject kDriveIface (qs "ConnectionBus")).1.toQString
      (qs "usb") = true ∧
    (getProp B st p kBlockIface (qs "HintSystem")).1.toBool = false ∧
    (getProp B st p kBlockIface (qs "HintIgnore")).1.toBool = false ∧
    d.deviceNode = deviceNodeOf B st p ∧
    d.deviceNode ≠ [] ∧ startsWith d.deviceNode (qs "/dev/") = true ∧
    isWholeDisk (sectionLast '/' d.deviceNode) = true := by
  unfold classifyBlock at h
  simp only at h
  split_ifs at h with h1 h2 h3 h4 h5 h6 h7
  simp only [Verdict.accept.injEq] at h
  subst h
  simp only [Bool.not_eq_true, Bool.not_eq_true', Bool.or_eq_true, not_or, List.isEmpty_iff,
    beq_iff_eq] at h1 h2 h3 h4 h5 h6 h7
  refine ⟨rfl, h1, by simpa using h2, rfl, h3.1, h3.2, by simpa using h4, h5.1, h5.2, rfl, ?_,
    h7, by simpa using h6⟩
  intro hnil
  simp only at hnil
  rw [hnil] at h7
  revert h7
  decide

theorem listStep_out (B : Backend σ) (st : σ) (acc : ListState) (p : QString) (d : UsbDevice)
    (h : d ∈ (listStep B st acc p).out) :
    d ∈ acc.out ∨ classifyBlock B st p = Verdict.accept d := by
  unfold listStep at h
  cases hc : classifyBlock B st p <;> simp only [hc] at h <;> try exact Or.inl h
  rcases List.mem_append.1 h with h | h
  · exact Or.inl h
  · right
    simp only [List.mem_singleton] at h
    rw [h]

theorem foldl_listStep_out (B : Backend σ) (st : σ) (blocks : List QString) (acc : ListState)
    (d : UsbDevice) (h : d ∈ (blocks.foldl (listStep B st) acc).out) :
    d ∈ acc.out ∨ ∃ p ∈ blocks, classifyBlock B st p = Verdict.accept d := by
  induction blocks generalizing acc with
  | nil => exact Or.inl h
  | cons p ps ih =>
    rcases ih _ h with h | ⟨q, hq, hc⟩
    · rcases listStep_out B st acc p d h with h | h
      · exact Or.inl h
      · exact Or.inr ⟨p, by simp, h⟩
    · exact Or.inr ⟨q, List.mem_cons_of_mem _ hq, hc⟩

theorem listUsbRemovable_mem (B : Backend σ) (st : σ) (d : UsbDevice)
    (h : d ∈ (listUsbRemovable B st).1) :
    ∃ blocks, B.getBlockDevices st = Reply.value blocks ∧
      ∃ p ∈ blocks, classifyBlock B st p = Verdict.accept d := by
  unfold listUsbRemovable at h
  split_ifs at h with h1
  · simp at h
  · cases hb : B.getBlockDevices st with
    | error e => simp [hb] at h
    | value blocks =>
      simp only [hb] at h
      refine ⟨blocks, rfl, ?_⟩
      have h2 : d ∈ (blocks.foldl (listStep B st) {}).out := by
        split_ifs at h <;> exact h
      rcases foldl_listStep_out B st blocks {} d h2 with h3 | h3
      · simp at h3
      · exact h3

/-- Every record returned by `listUsbRemovable` is a listed block without a
readable `Partition.Number`, with a drive link that is neither empty nor `/`,
on a drive whose `ConnectionBus` contains "usb" in any letter case, with
`HintSystem` and `HintIgnore` not set; its `deviceNode` is non-empty, starts
with `/dev/` and has a basename accepted by the whole-disk classifier. -/
theorem listUsbRemovable_records (B : Backend σ) (st : σ) (d : UsbDevice)
    (h : d ∈ (listUsbRemovable B st).1) :
    (getProp B st d.blockObject kPartitionIface (qs "Number")).2 = false ∧
    (getProp B st d.blockObject kBlockIface (qs "Drive")).2 = true ∧
    d.driveObject = (getProp B st d.blockObject kBlockIface (qs "Drive")).1.toObjectPath ∧
    d.driveObject ≠ [] ∧ d.driveObject ≠ qs "/" ∧
    containsCI (getProp B st d.driveObject kDriveIface (qs "ConnectionBus")).1.toQString
      (qs "usb") = true ∧
    (getProp B st d.blockObject kBlockIface (qs "HintSystem")).1.toBool = false ∧
    (getProp B st d.blockObject kBlockIface (qs "HintIgnore")).1.toBool = false ∧
    d.deviceNode ≠ [] ∧ startsWith d.deviceNode (qs "/dev/") = true ∧
    isWholeDisk (sectionLast '/' d.deviceNode) = true := by
  obtain ⟨blocks, -, p, -, hc⟩ := listUsbRemovable_mem B st d h
  obtain ⟨h0, h1, h2, h3, h4, h5, h6, h7, h8, -, h10, h11, h12⟩ := classifyBlock_accept B st p d hc
  subst h0
  exact ⟨h1, h2, h3, h4, h5, h6, h7, h8, h10, h11, h12⟩

/-- The record of `/dev/sdb` in scenario B satisfies the hypothesis of
`listUsbRemovable_records`. -/
theorem listUsbRemovable_records_witness :
    let B := testBackend scenarioB true
    let d : UsbDevice :=
      { blockObject := blockPath "sdb", driveObject := usbDrive, deviceNode := qs "/dev/sdb",
        vendor := [], model := [], serial := [], sizeBytes := 0, readOnly := false }
    d ∈ (listUsbRemovable B []).1 ∧
    isWholeDisk (sectionLast '/' d.deviceNode) = true := by
  intro B d
  have h : d ∈ (listUsbRemovable B []).1 := by decide
  exact ⟨h, (listUsbRemovable_records B [] d h).2.2.2.2.2.2.2.2.2.2⟩

/-- C1, at a service whose only block reports the device node `/dev/sdb`
followed by a line feed: `listUsbRemovable` returns a record for it, with that
device node, whose basename is not a full match of the whole-disk grammar. -/
theorem listUsbRemovable_newline_node :
    (listUsbRemovable (testBackend scenarioNewline true) []).1.map (fun d => d.deviceNode)
      = [qs "/dev/sdb\n"] ∧
    sectionLast '/' (qs "/dev/sdb\n") = qs "sdb\n" ∧
    ¬ WholeDiskGrammar (qs "sdb\n") :=
  ⟨by decide, by decide, not_grammar_of_final_newline (qs "sdb")⟩

/-! ## Unmounting -/

theorem containsCI_Not_mounted (m : QString) :
    containsCI m (qs "Not mounted") = containsCI m (qs "not mounted") := by
  have h : (qs "Not mounted").map foldCase = (qs "not mounted").map foldCase := by decide
  simp only [containsCI, h]

/-- A trace made of `Unmount` calls only. -/
theorem formatCalls_eq_nil (cs : List Call) (h : ∀ c ∈ cs, ∃ q r, c = Call.unmount q r) :
    formatCalls cs = [] := by
  induction cs with
  | nil => rfl
  | cons c cs ih =>
    obtain ⟨q, r, rfl⟩ := h c (by simp)
    simp only [formatCalls]
    exact ih (fun c hc => h c (List.mem_cons_of_mem _ hc))

theorem unmountIfMounted_calls (B : Backend σ) (st : σ) (p : QString) (c : Call)
    (h : c ∈ (unmountIfMounted B st p).calls) : ∃ r, c = Call.unmount p r := by
  unfold unmountIfMounted at h
  split_ifs at h with h1
  · simp at h
  · simp only at h
    split at h
    · exact ⟨_, by simpa using h⟩
    · split_ifs at h <;> exact ⟨_, by simpa using h⟩

theorem unmountIfMounted_error_call (B : Backend σ) (st : σ) (p q : QString) (e : DBusError)
    (h : Call.unmount q (Reply.error e) ∈ (unmountIfMounted B st p).calls)
    (hmsg : containsCI e.message (qs "not mounted") = false) :
    (unmountIfMounted B st p).result = Status.failed (qs "Unmount failed: " ++ e.message) := by
  unfold unmountIfMounted at h ⊢
  split_ifs at h ⊢ with h1
  · simp at h
  · simp only at h ⊢
    split at h
    · rename_i u hu
      simp only [List.mem_singleton, Call.unmount.injEq] at h
      rw [hu] at h
      exact absurd h.2 (by simp)
    · rename_i e2 he
      have he2 : e = e2 := by
        split_ifs at h <;>
        · simp only [List.mem_singleton, Call.unmount.injEq] at h
          rw [he] at h
          exact Reply.error.inj h.2
      subst he2
      simp [he, containsCI_Not_mounted, hmsg]

theorem unmountSiblings_calls (B : Backend σ) (drivePath : QString) (ps : List QString) (st : σ)
    (c : Call) (h : c ∈ (unmountSiblings B drivePath ps st).calls) :
    ∃ q r, c = Call.unmount q r := by
  induction ps generalizing st with
  | nil => simp [unmountSiblings] at h
  | cons p ps ih =>
    unfold unmountSiblings at h
    simp only at h
    split_ifs at h with h1 h2
    · exact ih st h
    · exact ih st h
    · split at h
      · exact ⟨p, unmountIfMounted_calls B st p c h⟩
      · rcases List.mem_append.1 h with h | h
        · exact ⟨p, unmountIfMounted_calls B st p c h⟩
        · exact ih _ h

theorem unmountSiblings_error_call (B : Backend σ) (drivePath : QString) (ps : List QString)
    (st : σ) (q : QString) (e : DBusError)
    (h : Call.unmount q (Reply.error e) ∈ (unmountSiblings B drivePath ps st).calls)
    (hmsg : containsCI e.message (qs "not mounted") = false) :
    (unmountSiblings B drivePath ps st).result
      = Status.failed (qs "Unmount failed: " ++ e.message) := by
  induction ps generalizing st with
  | nil => simp [unmountSiblings] at h
  | cons p ps ih =>
    unfold unmountSiblings at h ⊢
    simp only at h ⊢
    split_ifs at h ⊢ with h1 h2
    · exact ih st h
    · exact ih st h
    · have key := unmountIfMounted_error_call B st p q e
      split at h
      · rename_i e2 he
        simp only
        rw [← he]
        exact key h hmsg
      · rename_i he
        simp only
        rcases List.mem_append.1 h with h | h
        · have := key h hmsg
          rw [he] at this
          cases this
        · exact ih _ h

theorem unmountAllOnSameDrive_calls (B : Backend σ) (st : σ) (b : QString) (c : Call)
    (h : c ∈ (unmountAllOnSameDrive B st b).calls) : ∃ q r, c = Call.unmount q r := by
  have h0 := unmountIfMounted_calls B st b c
  unfold unmountAllOnSameDrive at h
  simp only at h
  split at h
  · exact ⟨b, h0 h⟩
  · split_ifs at h
    · exact ⟨b, h0 h⟩
    · exact ⟨b, h0 h⟩
    · exact ⟨b, h0 h⟩
    · split at h
      · exact ⟨b, h0 h⟩
      · rcases List.mem_append.1 h with h | h
        · exact ⟨b, h0 h⟩
        · exact unmountSiblings_calls B _ _ _ c h

theorem unmountAllOnSameDrive_error_call (B : Backend σ) (st : σ) (b q : QString)
    (e : DBusError)
    (h : Call.unmount q (Reply.error e) ∈ (unmountAllOnSameDrive B st b).calls)
    (hmsg : containsCI e.message (qs "not mounted") = false) :
    (unmountAllOnSameDrive B st b).result
      = Status.failed (qs "Unmount failed: " ++ e.message) := by
  have key := unmountIfMounted_error_call B st b q e
  unfold unmountAllOnSameDrive at h ⊢
  simp only at h ⊢
  split at h
  · rename_i e2 he
    simp only [he]
    rw [← he]
    exact key h hmsg
  · rename_i he
    have hno : Call.unmount q (Reply.error e) ∉ (unmountIfMounted B st b).calls := by
      intro hin
      have := key hin hmsg
      rw [he] at this
      cases this
    split_ifs at h ⊢
    · exact absurd h hno
    · exact absurd h hno
    · exact absurd h hno
    · split at h
      · exact absurd h hno
      · rcases List.mem_append.1 h with h | h
        · exact absurd h hno
        · exact unmountSiblings_error_call B _ _ _ q e h hmsg

theorem formatBlock_of_unmount_failed (B : Backend σ) (st : σ) (b fsType label eraseMode : QString)
    (tearDown : Bool) (msg : QString)
    (h : (unmountAllOnSameDrive B st b).result = Status.failed msg) :
    (formatBlock B st b fsType label eraseMode tearDown).result = Status.failed msg ∧
    (formatBlock B st b fsType label eraseMode tearDown).calls
      = (unmountAllOnSameDrive B st b).calls := by
  simp [formatBlock, h]

theorem wipeBlock_of_unmount_failed (B : Backend σ) (st : σ) (b eraseMode : QString)
    (tearDown : Bool) (msg : QString)
    (h : (unmountAllOnSameDrive B st b).result = Status.failed msg) :
    (wipeBlock B st b eraseMode tearDown).result = Status.failed msg ∧
    (wipeBlock B st b eraseMode tearDown).calls = (unmountAllOnSameDrive B st b).calls := by
  simp [wipeBlock, h]

/-- C3: if some `Unmount` issued by `unmountAllOnSameDrive` (on the target or on
a block of the same drive) is answered with an error whose message does not
contain "not mounted" (in any letter case), then `unmountAllOnSameDrive` fails
with that error, and `formatBlock` and `wipeBlock` fail with the same error
without issuing any `Format` call. -/
theorem unmount_failure_aborts (B : Backend σ) (st : σ) (b q : QString) (e : DBusError)
    (hcall : Call.unmount q (Reply.error e) ∈ (unmountAllOnSameDrive B st b).calls)
    (hmsg : containsCI e.message (qs "not mounted") = false) :
    (unmountAllOnSameDrive B st b).result
      = Status.failed (qs "Unmount failed: " ++ e.message) ∧
    ∀ (fsType label eraseMode : QString) (tearDown : Bool),
      (formatBlock B st b fsType label eraseMode tearDown).result
        = Status.failed (qs "Unmount failed: " ++ e.message) ∧
      formatCalls (formatBlock B st b fsType label eraseMode tearDown).calls = [] ∧
      (wipeBlock B st b eraseMode tearDown).result
        = Status.failed (qs "Unmount failed: " ++ e.message) ∧
      formatCalls (wipeBlock B st b eraseMode tearDown).calls = [] := by
  have hu := unmountAllOnSameDrive_error_call B st b q e hcall hmsg
  have hnil : formatCalls (unmountAllOnSameDrive B st b).calls = [] :=
    formatCalls_eq_nil _ (unmountAllOnSameDrive_calls B st b)
  refine ⟨hu, fun fsType label eraseMode tearDown => ?_⟩
  obtain ⟨f1, f2⟩ := formatBlock_of_unmount_failed B st b fsType label eraseMode tearDown _ hu
  obtain ⟨w1, w2⟩ := wipeBlock_of_unmount_failed B st b eraseMode tearDown _ hu
  exact ⟨f1, by rw [f2]; exact hnil, w1, by rw [w2]; exact hnil⟩

/-- C3 on a stick whose partition `sdb1` refuses to be unmounted ("target is
busy"): the error is carried and no `Format` call is issued. -/
theorem unmount_failure_aborts_witness :
    Call.unmount (blockPath "sdb1") (Reply.error busyError)
      ∈ (unmountAllOnSameDrive (testBackend scenarioBusy true)
          [blockPath "sdb", blockPath "sdb1"] (blockPath "sdb")).calls ∧
    (unmountAllOnSameDrive (testBackend scenarioBusy true)
        [blockPath "sdb", blockPath "sdb1"] (blockPath "sdb")).result
      = Status.failed (qs "Unmount failed: target is busy") ∧
    formatCalls (formatBlock (testBackend scenarioBusy true)
        [blockPath "sdb", blockPath "sdb1"] (blockPath "sdb") (qs "vfat") (qs "MYUSB") []
        true).calls = [] :=
  have h := unmount_failure_aborts (testBackend scenarioBusy true)
    [blockPath "sdb", blockPath "sdb1"] (blockPath "sdb") (blockPath "sdb1") busyError
    (by decide) (by decide)
  ⟨by decide, h.1, (h.2 (qs "vfat") (qs "MYUSB") [] true).2.1⟩

/-! ## Primary partition -/

theorem pickStep_inv (B : Backend σ) (st : σ) (b drivePath : QString)
    (hd : driveOf B st b = some drivePath) (seen : List QString) (best : Int × QString)
    (p : QString) (h : PickInv B st b seen best) :
    PickInv B st b (seen ++ [p]) (pickStep B st drivePath best p) := by
  obtain ⟨h1, h2, h3⟩ := h
  have hnot : ∀ n, IsPartitionOf B st b p n → 0 < n →
      (getProp B st p kBlockIface (qs "Drive")).2 = true ∧
      (getProp B st p kBlockIface (qs "Drive")).1.toObjectPath = drivePath ∧
      (getProp B st p kPartitionIface (qs "Number")).2 = true ∧
      (getProp B st p kPartitionIface (qs "Number")).1.toInt = n := by
    rintro n ⟨⟨hs1, hs2⟩, hn⟩ -
    rw [hd] at hs2
    simp only [partitionNumber] at hn
    split_ifs at hn with hok
    exact ⟨hs1, (Option.some.inj hs2).symm, hok, Option.some.inj hn⟩
  have keep : (∀ n, IsPartitionOf B st b p n → 0 < n → best.1 ≤ n) →
      PickInv B st b (seen ++ [p]) best := by
    intro hp
    refine ⟨h1, ?_, ?_⟩
    · intro q hq n hqn hpos
      rcases List.mem_append.1 hq with hq | hq
      · exact h2 q hq n hqn hpos
      · simp only [List.mem_singleton] at hq
        subst hq
        exact hp n hqn hpos
    · rcases h3 with ⟨hb, hall⟩ | ⟨hm, hpart, hpos, hlt⟩
      · left
        refine ⟨hb, ?_⟩
        intro q hq n hqn hpos
        rcases List.mem_append.1 hq with hq | hq
        · exact hall q hq n hqn hpos
        · simp only [List.mem_singleton] at hq
          subst hq
          have := hp n hqn hpos
          rw [hb] at this
          exact this
      · right
        exact ⟨List.mem_append_left _ hm, hpart, hpos, hlt⟩
  unfold pickStep
  simp only
  split_ifs with c1 c2 c3 c4 c5
  · apply keep
    intro n hn hpos
    obtain ⟨e1, -, -, -⟩ := hnot n hn hpos
    simp [e1] at c1
  · apply keep
    intro n hn hpos
    obtain ⟨-, e2, -, -⟩ := hnot n hn hpos
    simp [e2] at c2
  · apply keep
    intro n hn hpos
    obtain ⟨-, -, e3, -⟩ := hnot n hn hpos
    simp [e3] at c3
  · apply keep
    intro n hn hpos
    obtain ⟨-, -, -, e4⟩ := hnot n hn hpos
    omega
  · -- the block becomes the best candidate
    have hs : IsPartitionOf B st b p (getProp B st p kPartitionIface (qs "Number")).1.toInt := by
      refine ⟨⟨by simpa using c1, ?_⟩, ?_⟩
      · rw [hd]
        simp only [bne_iff_ne, ne_eq, not_not] at c2
        rw [c2]
      · simp only [partitionNumber]
        rw [if_pos (by simpa using c3)]
    refine ⟨by omega, ?_, Or.inr ⟨by simp, hs, by omega, by omega⟩⟩
    intro q hq n hqn hpos
    rcases List.mem_append.1 hq with hq | hq
    · have := h2 q hq n hqn hpos
      simp only
      omega
    · simp only [List.mem_singleton] at hq
      subst hq
      obtain ⟨-, -, -, e4⟩ := hnot n hqn hpos
      simp only
      omega
  · apply keep
    intro n hn hpos
    obtain ⟨-, -, -, e4⟩ := hnot n hn hpos
    omega

theorem foldl_pickStep_inv (B : Backend σ) (st : σ) (b drivePath : QString)
    (hd : driveOf B st b = some drivePath) (l seen : List QString) (best : Int × QString)
    (h : PickInv B st b seen best) :
    PickInv B st b (seen ++ l) (l.foldl (pickStep B st drivePath) best) := by
  induction l generalizing seen best with
  | nil => simpa using h
  | cons p ps ih =>
    have := ih (seen ++ [p]) _ (pickStep_inv B st b drivePath hd seen best p h)
    simpa using this

theorem pickPrimaryPartitionBlock_eq (B : Backend σ) (st : σ) (b drivePath : QString)
    (hd : driveOf B st b = some drivePath) :
    pickPrimaryPartitionBlock B st b
      = ((listedBlocks B st).foldl (pickStep B st drivePath) (intMax, [])).2 := by
  unfold driveOf at hd
  simp only at hd
  split_ifs at hd with h
  obtain ⟨h1, h2, h3⟩ := h
  have hd2 := Option.some.inj hd
  unfold pickPrimaryPartitionBlock listedBlocks
  simp only [h1, Bool.not_true, Bool.false_eq_true, if_false, hd2]
  have e1 : drivePath.isEmpty = false := by
    rw [← hd2]; simpa [List.isEmpty_iff] using h2
  have e2 : (drivePath == qs "/") = false := by
    rw [← hd2]; simpa using h3
  simp only [e1, e2, Bool.or_self, Bool.false_eq_true, if_false]
  by_cases hv : B.isValid st kManagerPath kManagerIface = true
  · simp only [hv, Bool.not_true, Bool.false_eq_true, if_false, if_true]
    cases B.getBlockDevices st <;> rfl
  · simp only [Bool.not_eq_true] at hv
    simp [hv]

theorem pickPrimaryPartitionBlock_of_no_drive (B : Backend σ) (st : σ) (b : QString)
    (hd : driveOf B st b = none) : pickPrimaryPartitionBlock B st b = [] := by
  unfold driveOf at hd
  simp only at hd
  split_ifs at hd with h
  unfold pickPrimaryPartitionBlock
  simp only
  by_cases h1 : (getProp B st b kBlockIface (qs "Drive")).2 = true
  · simp only [h1, Bool.not_true, Bool.false_eq_true, if_false]
    have : ¬ ((getProp B st b kBlockIface (qs "Drive")).1.toObjectPath ≠ [] ∧
        (getProp B st b kBlockIface (qs "Drive")).1.toObjectPath ≠ qs "/") :=
      fun h2 => h ⟨h1, h2⟩
    rw [if_pos]
    simp only [Bool.or_eq_true, List.isEmpty_iff, beq_iff_eq]
    by_contra hc
    exact this ⟨fun h3 => hc (Or.inl h3), fun h3 => hc (Or.inr h3)⟩
  · simp only [Bool.not_eq_true] at h1
    simp [h1]

/-- What `pickPrimaryPartitionBlock` returns, for partition numbers below
2147483647: with no such partition among the listed siblings it returns the
empty string; otherwise it returns a listed sibling whose partition number is
strictly positive and at most that of every other listed sibling partition. -/
theorem pickPrimaryPartitionBlock_spec (B : Backend σ) (st : σ) (b : QString) :
    ((∀ q ∈ listedBlocks B st, ∀ n, IsPartitionOf B st b q n → 0 < n → intMax ≤ n) →
      pickPrimaryPartitionBlock B st b = []) ∧
    ((∃ q ∈ listedBlocks B st, ∃ n, IsPartitionOf B st b q n ∧ 0 < n ∧ n < intMax) →
      ∃ m, pickPrimaryPartitionBlock B st b ∈ listedBlocks B st ∧
        IsPartitionOf B st b (pickPrimaryPartitionBlock B st b) m ∧ 0 < m ∧
        ∀ q ∈ listedBlocks B st, ∀ n, IsPartitionOf B st b q n → 0 < n → m ≤ n) := by
  cases hd : driveOf B st b with
  | none =>
    refine ⟨fun _ => pickPrimaryPartitionBlock_of_no_drive B st b hd, ?_⟩
    rintro ⟨q, -, n, ⟨⟨-, hs⟩, -⟩, -⟩
    rw [hd] at hs
    cases hs
  | some drivePath =>
    have hinv := foldl_pickStep_inv B st b drivePath hd (listedBlocks B st) [] (intMax, [])
      ⟨le_refl _, by simp, Or.inl ⟨rfl, by simp⟩⟩
    rw [pickPrimaryPartitionBlock_eq B st b drivePath hd]
    simp only [List.nil_append] at hinv
    obtain ⟨-, h2, h3⟩ := hinv
    constructor
    · intro hnone
      rcases h3 with ⟨hb, -⟩ | ⟨hm, hpart, hpos, hlt⟩
      · rw [hb]
      · have := hnone _ hm _ hpart hpos
        omega
    · rintro ⟨q, hq, n, hqn, hpos, hlt⟩
      rcases h3 with ⟨hb, hall⟩ | ⟨hm, hpart, hpos2, hlt2⟩
      · have := hall q hq n hqn hpos
        omega
      · exact ⟨_, hm, hpart, hpos2, h2⟩

/-! ## Format and wipe -/

theorem formatCalls_append (xs ys : List Call) :
    formatCalls (xs ++ ys) = formatCalls xs ++ formatCalls ys := by
  induction xs with
  | nil => rfl
  | cons c cs ih => cases c <;> simp [formatCalls, ih]

theorem formatCalls_unmountAllOnSameDrive (B : Backend σ) (st : σ) (b : QString) :
    formatCalls (unmountAllOnSameDrive B st b).calls = [] :=
  formatCalls_eq_nil _ (unmountAllOnSameDrive_calls B st b)

/-- The `Format` calls of `formatBlock`: none when unmounting fails or the block
interface of the target is not valid, otherwise one call on the target chosen
before unmounting, with the given filesystem type and the options map. -/
theorem formatBlock_formatCalls (B : Backend σ) (st : σ) (b fsType label eraseMode : QString)
    (tearDown : Bool) :
    formatCalls (formatBlock B st b fsType label eraseMode tearDown).calls =
      if (unmountAllOnSameDrive B st b).result = Status.ok ∧
          B.isValid (unmountAllOnSameDrive B st b).state (fmtTarget B st b) kBlockIface = true
      then [(fmtTarget B st b, fsType, formatOpts label eraseMode tearDown)] else [] := by
  have hnil := formatCalls_unmountAllOnSameDrive B st b
  unfold formatBlock
  simp only
  cases hu : (unmountAllOnSameDrive B st b).result with
  | failed e => simp [hnil]
  | ok =>
    by_cases hv : B.isValid (unmountAllOnSameDrive B st b).state (fmtTarget B st b) kBlockIface
        = true
    · simp only [hv, Bool.not_true, Bool.false_eq_true, if_false, and_self, if_true]
      split <;> simp [formatCalls_append, hnil, formatCalls]
    · simp only [Bool.not_eq_true] at hv
      simp [hv, hnil]

/-- The `Format` calls of `wipeBlock`: none when unmounting fails or the block
interface of the given block is not valid, otherwise one call on the given
block with type "empty" and the options map. -/
theorem wipeBlock_formatCalls (B : Backend σ) (st : σ) (b eraseMode : QString)
    (tearDown : Bool) :
    formatCalls (wipeBlock B st b eraseMode tearDown).calls =
      if (unmountAllOnSameDrive B st b).result = Status.ok ∧
          B.isValid (unmountAllOnSameDrive B st b).state b kBlockIface = true
      then [(b, qs "empty", wipeOpts eraseMode tearDown)] else [] := by
  have hnil := formatCalls_unmountAllOnSameDrive B st b
  unfold wipeBlock
  simp only
  cases hu : (unmountAllOnSameDrive B st b).result with
  | failed e => simp [hnil]
  | ok =>
    by_cases hv : B.isValid (unmountAllOnSameDrive B st b).state b kBlockIface = true
    · simp only [hv, Bool.not_true, Bool.false_eq_true, if_false, and_self, if_true]
      split <;> simp [formatCalls_append, hnil, formatCalls]
    · simp only [Bool.not_eq_true] at hv
      simp [hv, hnil]

/-- The options map of `formatBlock`, key by key. -/
theorem formatOpts_eq (label eraseMode : QString) (tearDown : Bool) :
    formatOpts label eraseMode tearDown =
      (if label = [] then [] else [(qs "label", QVariant.string label)]) ++
      (if eraseMode = [] then [] else [(qs "erase", QVariant.string eraseMode)]) ++
      [(qs "take-ownership", QVariant.bool true),
       (qs "update-partition-type", QVariant.bool true)] ++
      (if tearDown = true then [(qs "tear-down", QVariant.bool true)] else []) := by
  cases label <;> cases eraseMode <;> cases tearDown <;> rfl

/-- The options map of `wipeBlock`, key by key. -/
theorem wipeOpts_eq (eraseMode : QString) (tearDown : Bool) :
    wipeOpts eraseMode tearDown =
      (if eraseMode = [] then [] else [(qs "erase", QVariant.string eraseMode)]) ++
      (if tearDown = true then [(qs "tear-down", QVariant.bool true)] else []) := by
  cases eraseMode <;> cases tearDown <;> rfl

/-- C4, at a stick whose only partition `sdb1` has partition number 2147483647:
`sdb1` is a sibling of `sdb` with a strictly positive partition number, yet
`pickPrimaryPartitionBlock` returns "none" and `formatBlock` issues its `Format`
call on the whole disk `sdb`. -/
theorem pickPrimaryPartitionBlock_misses_int_max :
    blockPath "sdb1" ∈ listedBlocks (testBackend scenarioMaxNumber true) [] ∧
    IsPartitionOf (testBackend scenarioMaxNumber true) [] (blockPath "sdb") (blockPath "sdb1")
      2147483647 ∧
    pickPrimaryPartitionBlock (testBackend scenarioMaxNumber true) [] (blockPath "sdb") = [] ∧
    formatCalls (formatBlock (testBackend scenarioMaxNumber true) [] (blockPath "sdb")
        (qs "vfat") (qs "MYUSB") [] true).calls
      = [(blockPath "sdb", qs "vfat", formatOpts (qs "MYUSB") [] true)] := by
  refine ⟨by decide, ⟨⟨by decide, by decide⟩, by decide⟩, by decide, by decide⟩

/-- With partitions numbered 3, 1 and 2 the partition numbered 1 is picked and
formatted. -/
theorem pickPrimaryPartitionBlock_example :
    pickPrimaryPartitionBlock (testBackend scenarioThree true) [] (blockPath "sdb")
      = blockPath "sdb1" ∧
    formatCalls (formatBlock (testBackend scenarioThree true) [] (blockPath "sdb")
        (qs "vfat") (qs "MYUSB") [] true).calls
      = [(blockPath "sdb1", qs "vfat", formatOpts (qs "MYUSB") [] true)] := by
  refine ⟨by decide, by decide⟩

/-- The target of `formatBlock`, for partition numbers below 2147483647 and
non-empty object paths: the given block when no listed sibling is such a
partition, otherwise a listed sibling partition with the least strictly positive
number. -/
theorem fmtTarget_spec (B : Backend σ) (st : σ) (b : QString)
    (hpaths : ∀ q ∈ listedBlocks B st, q ≠ []) :
    ((∀ q ∈ listedBlocks B st, ∀ n, IsPartitionOf B st b q n → 0 < n → intMax ≤ n) →
      fmtTarget B st b = b) ∧
    ((∃ q ∈ listedBlocks B st, ∃ n, IsPartitionOf B st b q n ∧ 0 < n ∧ n < intMax) →
      ∃ m, fmtTarget B st b ∈ listedBlocks B st ∧
        IsPartitionOf B st b (fmtTarget B st b) m ∧ 0 < m ∧
        ∀ q ∈ listedBlocks B st, ∀ n, IsPartitionOf B st b q n → 0 < n → m ≤ n) := by
  obtain ⟨h1, h2⟩ := pickPrimaryPartitionBlock_spec B st b
  constructor
  · intro h
    simp [fmtTarget, h1 h]
  · intro h
    obtain ⟨m, hm, hrest⟩ := h2 h
    have hne : pickPrimaryPartitionBlock B st b ≠ [] := hpaths _ hm
    have : fmtTarget B st b = pickPrimaryPartitionBlock B st b := by
      unfold fmtTarget
      simp only
      rw [if_neg]
      simpa [List.isEmpty_iff] using hne
    rw [this]
    exact ⟨m, hm, hrest⟩

/-- The target of `formatBlock` on the stick with partitions 3, 1 and 2. -/
theorem fmtTarget_spec_witness :
    (∀ q ∈ listedBlocks (testBackend scenarioThree true) [], q ≠ []) ∧
    ∃ m, fmtTarget (testBackend scenarioThree true) [] (blockPath "sdb")
        ∈ listedBlocks (testBackend scenarioThree true) [] ∧
      IsPartitionOf (testBackend scenarioThree true) [] (blockPath "sdb")
        (fmtTarget (testBackend scenarioThree true) [] (blockPath "sdb")) m ∧ 0 < m ∧
      ∀ q ∈ listedBlocks (testBackend scenarioThree true) [], ∀ n,
        IsPartitionOf (testBackend scenarioThree true) [] (blockPath "sdb") q n → 0 < n → m ≤ n :=
  have hp : ∀ q ∈ listedBlocks (testBackend scenarioThree true) [], q ≠ [] := by decide
  ⟨hp, (fmtTarget_spec (testBackend scenarioThree true) [] (blockPath "sdb") hp).2
    ⟨blockPath "sdb2", by decide, 2, ⟨⟨by decide, by decide⟩, by decide⟩, by decide, by decide⟩⟩

/-- C5 as stated fails when the service cannot be reached: every probe fails, so
unmounting succeeds without a single call, and `wipeBlock` then stops at the
validity check of the block interface without issuing a `Format` call. -/
theorem wipeBlock_unreachable_no_format :
    (unmountAllOnSameDrive (testBackend scenarioB false) [] (blockPath "sdb")).result
      = Status.ok ∧
    formatCalls (wipeBlock (testBackend scenarioB false) [] (blockPath "sdb") (qs "zero")
      true).calls = [] ∧
    (wipeBlock (testBackend scenarioB false) [] (blockPath "sdb") (qs "zero") true).result
      = Status.failed
          (qs "org.freedesktop.UDisks2.Block interface not available for: " ++ blockPath "sdb") := by
  refine ⟨by decide, by decide, by decide⟩

/-- C5, amended: when unmounting succeeds and the block interface of `b` is
valid, `wipeBlock b eraseMode tearDown` issues exactly one `Format` call, on `b`
itself, with type "empty" and the options `erase` (present iff `eraseMode` is
non-empty) and `tear-down = true` (present iff `tearDown`), nothing else; for
"zero" with tear-down the options are `erase: "zero"`, `tear-down: true`.  When
unmounting succeeds and the block interface of `b` is not valid, no `Format`
call is issued and `wipeBlock` fails with "interface not available". -/
theorem wipeBlock_issues_one_format (B : Backend σ) (st : σ) (b eraseMode : QString)
    (tearDown : Bool)
    (hu : (unmountAllOnSameDrive B st b).result = Status.ok) :
    (B.isValid (unmountAllOnSameDrive B st b).state b kBlockIface = true →
      formatCalls (wipeBlock B st b eraseMode tearDown).calls
        = [(b, qs "empty", wipeOpts eraseMode tearDown)]) ∧
    (B.isValid (unmountAllOnSameDrive B st b).state b kBlockIface = false →
      formatCalls (wipeBlock B st b eraseMode tearDown).calls = [] ∧
      (wipeBlock B st b eraseMode tearDown).result
        = Status.failed
            (qs "org.freedesktop.UDisks2.Block interface not available for: " ++ b)) ∧
    wipeOpts eraseMode tearDown =
      (if eraseMode = [] then [] else [(qs "erase", QVariant.string eraseMode)]) ++
      (if tearDown = true then [(qs "tear-down", QVariant.bool true)] else []) ∧
    wipeOpts (qs "zero") true
      = [(qs "erase", QVariant.string (qs "zero")), (qs "tear-down", QVariant.bool true)] := by
  refine ⟨?_, ?_, wipeOpts_eq eraseMode tearDown, by decide⟩
  · intro hv
    rw [wipeBlock_formatCalls, if_pos ⟨hu, hv⟩]
  · intro hv
    constructor
    · rw [wipeBlock_formatCalls, if_neg]
      rintro ⟨-, h⟩
      rw [hv] at h
      cases h
    · simp [wipeBlock, hu, hv]

/-- Scenario B: the full wipe of `sdb`, with `sdb1` mounted, issues
`Format("empty", erase: "zero", tear-down: true)` on `sdb`, not on `sdb1`; with
the service out of reach no `Format` call is issued. -/
theorem wipeBlock_issues_one_format_witness :
    formatCalls (wipeBlock (testBackend scenarioB true) [blockPath "sdb1"] (blockPath "sdb")
        (qs "zero") true).calls
      = [(blockPath "sdb", qs "empty",
          [(qs "erase", QVariant.string (qs "zero")), (qs "tear-down", QVariant.bool true)])] ∧
    formatCalls (wipeBlock (testBackend scenarioB false) [] (blockPath "sdb")
        (qs "zero") true).calls = [] :=
  have h := wipeBlock_issues_one_format (testBackend scenarioB true) [blockPath "sdb1"]
    (blockPath "sdb") (qs "zero") true (by decide)
  have h2 := wipeBlock_issues_one_format (testBackend scenarioB false) []
    (blockPath "sdb") (qs "zero") true (by decide)
  ⟨(h.1 (by decide)).trans (by rw [h.2.2.2]), (h2.2.1 (by decide)).1⟩

/-- C6: when unmounting succeeds, `formatBlock` issues at most one `Format`
call (exactly one when the block interface of the target is valid); the call
passes `fsType` unchanged and the options map holding exactly `label` (iff
`label` is non-empty), `erase` (iff `eraseMode` is non-empty),
`take-ownership = true`, `update-partition-type = true` and `tear-down = true`
(iff `tearDown`); for label "MYUSB", no erase mode and tear-down the map is
`label: "MYUSB"`, `take-ownership: true`, `update-partition-type: true`,
`tear-down: true`. -/
theorem formatBlock_format_arguments (B : Backend σ) (st : σ)
    (b fsType label eraseMode : QString) (tearDown : Bool)
    (hu : (unmountAllOnSameDrive B st b).result = Status.ok) :
    formatCalls (formatBlock B st b fsType label eraseMode tearDown).calls =
      (if B.isValid (unmountAllOnSameDrive B st b).state (fmtTarget B st b) kBlockIface = true
       then [(fmtTarget B st b, fsType, formatOpts label eraseMode tearDown)] else []) ∧
    formatOpts label eraseMode tearDown =
      (if label = [] then [] else [(qs "label", QVariant.string label)]) ++
      (if eraseMode = [] then [] else [(qs "erase", QVariant.string eraseMode)]) ++
      [(qs "take-ownership", QVariant.bool true),
       (qs "update-partition-type", QVariant.bool true)] ++
      (if tearDown = true then [(qs "tear-down", QVariant.bool true)] else []) ∧
    formatOpts (qs "MYUSB") [] true
      = [(qs "label", QVariant.string (qs "MYUSB")), (qs "take-ownership", QVariant.bool true),
         (qs "update-partition-type", QVariant.bool true),
         (qs "tear-down", QVariant.bool true)] := by
  refine ⟨?_, formatOpts_eq label eraseMode tearDown, by decide⟩
  rw [formatBlock_formatCalls]
  simp only [hu, true_and]

/-- Scenario A: formatting `sdb` as vfat with label "MYUSB" and tear-down. -/
theorem formatBlock_format_arguments_witness :
    formatCalls (formatBlock (testBackend scenarioA true) [blockPath "sdb"] (blockPath "sdb")
        (qs "vfat") (qs "MYUSB") [] true).calls
      = [(blockPath "sdb", qs "vfat",
          [(qs "label", QVariant.string (qs "MYUSB")), (qs "take-ownership", QVariant.bool true),
           (qs "update-partition-type", QVariant.bool true),
           (qs "tear-down", QVariant.bool true)])] :=
  have h := formatBlock_format_arguments (testBackend scenarioA true) [blockPath "sdb"]
    (blockPath "sdb") (qs "vfat") (qs "MYUSB") [] true (by decide)
  h.1.trans (by rw [h.2.2]; decide)

/-! ## Order and number of unmount calls -/

theorem SameLinks.trans (B : Backend σ) (s1 s2 s3 : σ) (h12 : SameLinks B s1 s2)
    (h23 : SameLinks B s2 s3) : SameLinks B s1 s3 :=
  ⟨fun o => (h12.1 o).trans (h23.1 o), fun o => (h12.2.1 o).trans (h23.2.1 o),
    h12.2.2.1.trans h23.2.2.1, h12.2.2.2.trans h23.2.2.2⟩

theorem unmountIfMounted_sameLinks (B : Backend σ) (hB : UnmountKeepsLinks B) (s0 st : σ)
    (p : QString) (h : SameLinks B st s0) :
    SameLinks B (unmountIfMounted B st p).state s0 := by
  have hk : SameLinks B (B.unmount st p).2 s0 := SameLinks.trans B _ st s0 (hB st p) h
  unfold unmountIfMounted
  split_ifs
  · exact h
  · simp only
    split
    · exact hk
    · split_ifs <;> exact hk

theorem unmountIfMounted_unmountCalls (B : Backend σ) (st : σ) (p : QString) :
    unmountCalls (unmountIfMounted B st p).calls = if hasFilesystem B st p then [p] else [] := by
  unfold unmountIfMounted hasFilesystem
  by_cases h : (getProp B st p kFilesystemIface (qs "MountPoints")).2 = true
  · simp only [h, Bool.not_true, Bool.false_eq_true, if_false, if_true]
    split
    · rfl
    · split_ifs <;> rfl
  · simp only [Bool.not_eq_true] at h
    simp [h, unmountCalls]

theorem unmountCalls_append (xs ys : List Call) :
    unmountCalls (xs ++ ys) = unmountCalls xs ++ unmountCalls ys := by
  induction xs with
  | nil => rfl
  | cons c cs ih => cases c <;> simp [unmountCalls, ih]

theorem unmountSiblings_unmountCalls (B : Backend σ) (hB : UnmountKeepsLinks B) (s0 : σ)
    (drivePath : QString) (ps : List QString) (st : σ) (h : SameLinks B st s0)
    (hok : (unmountSiblings B drivePath ps st).result = Status.ok) :
    unmountCalls (unmountSiblings B drivePath ps st).calls =
      (ps.filter (fun p =>
        (getProp B s0 p kBlockIface (qs "Drive")).2 &&
        (getProp B s0 p kBlockIface (qs "Drive")).1.toObjectPath == drivePath)).filter
        (hasFilesystem B s0) := by
  induction ps generalizing st with
  | nil => simp [unmountSiblings, unmountCalls]
  | cons p ps ih =>
    have hg := h.1
    simp only [unmountSiblings, hg] at hok ⊢
    rw [List.filter_cons]
    by_cases c1 : (getProp B s0 p kBlockIface (qs "Drive")).2 = true
    · by_cases c2 : (getProp B s0 p kBlockIface (qs "Drive")).1.toObjectPath = drivePath
      · simp only [c1, c2, Bool.not_true, Bool.false_eq_true, if_false, bne_self_eq_false,
          beq_self_eq_true, Bool.and_self, if_true] at hok ⊢
        cases hr : (unmountIfMounted B st p).result with
        | failed e => simp [hr] at hok
        | ok =>
          simp only [hr] at hok ⊢
          rw [unmountCalls_append, unmountIfMounted_unmountCalls,
            ih _ (unmountIfMounted_sameLinks B hB s0 st p h) hok, List.filter_cons]
          rw [h.2.1 p]
          split_ifs <;> simp
      · have c2b : ((getProp B s0 p kBlockIface (qs "Drive")).1.toObjectPath != drivePath)
            = true := by simpa using c2
        have c2c : ((getProp B s0 p kBlockIface (qs "Drive")).1.toObjectPath == drivePath)
            = false := by simpa using c2
        simp only [c1, c2b, c2c, Bool.not_true, Bool.false_eq_true, if_false, if_true,
          Bool.and_false] at hok ⊢
        exact ih st h hok
    · simp only [Bool.not_eq_true] at c1
      simp only [c1, Bool.not_false, if_true, Bool.false_and, Bool.false_eq_true,
        if_false] at hok ⊢
      exact ih st h hok

/-- C10, amended: on a service where unmounting changes neither the `Drive`
links, nor which blocks expose the filesystem interface, nor the block listing
(the value of `MountPoints` may change), when
`unmountAllOnSameDrive b` succeeds its `Unmount` calls are issued first on `b`
and then, in the order of the block listing, on every listed block whose drive
is the drive of `b`, each call being issued only on a block that exposes the
filesystem interface; a listed `b` with a drive is one of those listed blocks,
so it is visited a second time. -/
theorem unmountAllOnSameDrive_unmountCalls (B : Backend σ) (st : σ) (b : QString)
    (hB : UnmountKeepsLinks B)
    (hok : (unmountAllOnSameDrive B st b).result = Status.ok) :
    unmountCalls (unmountAllOnSameDrive B st b).calls
      = (b :: sameDriveBlocks B st b).filter (hasFilesystem B st) ∧
    (b ∈ listedBlocks B st → driveOf B st b ≠ none → b ∈ sameDriveBlocks B st b) := by
  constructor
  · have hs := unmountIfMounted_sameLinks B hB st st b
      ⟨fun _ => rfl, fun _ => rfl, rfl, rfl⟩
    have hg := hs.1
    have h0 := unmountIfMounted_unmountCalls B st b
    unfold unmountAllOnSameDrive at hok ⊢
    simp only at hok ⊢
    rw [List.filter_cons]
    cases hr : (unmountIfMounted B st b).result with
    | failed e => simp [hr] at hok
    | ok =>
      simp only [hr] at hok ⊢
      simp only [hg, hs.2.2.1, hs.2.2.2] at hok ⊢
      unfold sameDriveBlocks driveOf listedBlocks
      simp only
      by_cases c1 : (getProp B st b kBlockIface (qs "Drive")).2 = true
      · by_cases c2 : (getProp B st b kBlockIface (qs "Drive")).1.toObjectPath = []
        · simp only [c1, c2, Bool.not_true, Bool.false_eq_true, if_false, List.isEmpty_nil,
            Bool.true_or, if_true, ne_eq, not_true_eq_false, false_and, and_false]
          rw [h0]
          split_ifs <;> simp
        · by_cases c3 : (getProp B st b kBlockIface (qs "Drive")).1.toObjectPath = qs "/"
          · simp only [c1, c3, Bool.not_true, Bool.false_eq_true, if_false, beq_self_eq_true,
              Bool.or_true, if_true, ne_eq, not_true_eq_false, and_false]
            rw [h0]
            split_ifs <;> simp
          · have e1 : ((getProp B st b kBlockIface (qs "Drive")).1.toObjectPath.isEmpty ||
                (getProp B st b kBlockIface (qs "Drive")).1.toObjectPath == qs "/") = false := by
              simp [List.isEmpty_iff, c2, c3]
            simp only [c1, e1, c2, c3, Bool.not_true, Bool.false_eq_true, if_false, ne_eq,
              not_false_eq_true, and_self, if_true] at hok ⊢
            by_cases c4 : B.isValid st kManagerPath kManagerIface = true
            · simp only [c4, Bool.not_true, Bool.false_eq_true, if_false, if_true] at hok ⊢
              cases hb : B.getBlockDevices st with
              | error e =>
                simp only [hb]
                rw [h0]
                split_ifs <;> simp
              | value blocks =>
                simp only [hb] at hok ⊢
                rw [unmountCalls_append, h0,
                  unmountSiblings_unmountCalls B hB st _ blocks _ hs hok]
                split_ifs <;> simp
            · simp only [Bool.not_eq_true] at c4
              simp only [c4, Bool.not_false, if_true, Bool.false_eq_true, if_false]
              rw [h0]
              split_ifs <;> simp
      · simp only [Bool.not_eq_true] at c1
        simp only [c1, Bool.not_false, if_true, Bool.false_eq_true, false_and, if_false]
        rw [h0]
        split_ifs <;> simp
  · intro hl hd
    unfold sameDriveBlocks
    cases hdr : driveOf B st b with
    | none => exact absurd hdr hd
    | some d =>
      simp only [List.mem_filter, Bool.and_eq_true, beq_iff_eq]
      refine ⟨hl, ?_⟩
      unfold driveOf at hdr
      simp only at hdr
      split_ifs at hdr with h
      exact ⟨h.1, Option.some.inj hdr⟩

/-- C10 as stated fails: on a service where every `Unmount` succeeds, with the
blocks `sdb` and `sdb1` of one drive, the calls are `Unmount(sdb)`,
`Unmount(sdb)`, `Unmount(sdb1)`; with `sdb` alone, `Unmount(sdb)` is issued
twice. -/
theorem unmountAllOnSameDrive_visits_target_twice :
    (unmountAllOnSameDrive (lenientBackend scenarioB) () (blockPath "sdb")).result = Status.ok ∧
    (unmountAllOnSameDrive (lenientBackend scenarioB) () (blockPath "sdb")).calls
      = [Call.unmount (blockPath "sdb") (Reply.value ()),
         Call.unmount (blockPath "sdb") (Reply.value ()),
         Call.unmount (blockPath "sdb1") (Reply.value ())] ∧
    unmountCalls (unmountAllOnSameDrive (lenientBackend scenarioB) () (blockPath "sdb")).calls
      ≠ [blockPath "sdb", blockPath "sdb1"] ∧
    (unmountAllOnSameDrive (lenientBackend scenarioA) () (blockPath "sdb")).result = Status.ok ∧
    (unmountAllOnSameDrive (lenientBackend scenarioA) () (blockPath "sdb")).calls
      = [Call.unmount (blockPath "sdb") (Reply.value ()),
         Call.unmount (blockPath "sdb") (Reply.value ())] := by
  refine ⟨by decide, by decide, by decide, by decide, by decide⟩

theorem mountingBackend_hasFilesystem (blocks : List TestBlock) (m1 m2 : List QString)
    (o : QString) :
    hasFilesystem (mountingBackend blocks) m1 o = hasFilesystem (mountingBackend blocks) m2 o := by
  have key : ∀ m : List QString, hasFilesystem (mountingBackend blocks) m o
      = (match testGet blocks o kFilesystemIface (qs "MountPoints") with
         | Reply.value _ => true
         | Reply.error _ => false) := by
    intro m
    simp only [hasFilesystem, getProp, mountingBackend, Bool.not_true, Bool.false_eq_true,
      if_false]
    split_ifs <;> cases testGet blocks o kFilesystemIface (qs "MountPoints") <;> rfl
  rw [key m1, key m2]

theorem mountingBackend_keepsLinks (blocks : List TestBlock) :
    UnmountKeepsLinks (mountingBackend blocks) := by
  intro st p
  refine ⟨?_, fun o => mountingBackend_hasFilesystem blocks _ _ o, rfl, rfl⟩
  intro o
  have hne : kBlockIface ≠ kFilesystemIface := by decide
  simp [getProp, mountingBackend, hne]

/-- Scenario B on the test service with mount points, both filesystems mounted:
unmounting empties `MountPoints`, and the calls are `Unmount(sdb)`,
`Unmount(sdb)` (answered "not mounted"), `Unmount(sdb1)`. -/
theorem unmountAllOnSameDrive_unmountCalls_witness :
    UnmountKeepsLinks (mountingBackend scenarioB) ∧
    (mountingBackend scenarioB).get [blockPath "sdb", blockPath "sdb1"] (blockPath "sdb")
        kFilesystemIface (qs "MountPoints")
      ≠ (mountingBackend scenarioB).get [blockPath "sdb1"] (blockPath "sdb")
        kFilesystemIface (qs "MountPoints") ∧
    unmountCalls (unmountAllOnSameDrive (mountingBackend scenarioB)
        [blockPath "sdb", blockPath "sdb1"] (blockPath "sdb")).calls
      = [blockPath "sdb", blockPath "sdb", blockPath "sdb1"] :=
  have hB : UnmountKeepsLinks (mountingBackend scenarioB) := mountingBackend_keepsLinks scenarioB
  ⟨hB, by decide, (unmountAllOnSameDrive_unmountCalls (mountingBackend scenarioB)
    [blockPath "sdb", blockPath "sdb1"] (blockPath "sdb") hB (by decide)).1.trans (by decide)⟩

/-! ## The main window -/

/-- C7: while an operation is in flight (`busy_` is true), `runOp` returns the
window unchanged: no task is started, no line is logged, and the busy flag, the
timers, the controls and the remembered device and error state stay as they
are. -/
theorem runOp_busy_noop (w : MainWindow) (startLine okLine failPrefix : QString) (fn : Op)
    (h : w.busy = true) :
    w.runOp startLine okLine failPrefix fn = w ∧
    w.step (Event.submit startLine okLine failPrefix fn) = w := by
  simp [MainWindow.step, MainWindow.runOp, h]

/-- A second submission while the first operation runs changes nothing. -/
theorem runOp_busy_noop_witness :
    (exampleWindow.step exampleSubmit).busy = true ∧
    (exampleWindow.step exampleSubmit).workers.length = 1 ∧
    (exampleWindow.step exampleSubmit).step exampleSubmit = exampleWindow.step exampleSubmit :=
  ⟨by decide, by decide,
    (runOp_busy_noop (exampleWindow.step exampleSubmit) (qs "Formatting /dev/sdb (vfat)...")
      (qs "OK: format complete.") (qs "ERROR: ") exampleOp (by decide)).2⟩

theorem updateActionEnablement_formatBtn (w : MainWindow)
    (hnode : ∀ item, w.currentItem = some item → item.deviceNode ≠ []) :
    w.updateActionEnablement.formatBtnEnabled = true ↔
      ∃ item, w.currentItem = some item ∧ trimmed w.confirmText = item.deviceNode ∧
        item.readOnly = false := by
  simp only [MainWindow.updateActionEnablement, MainWindow.selectedDeviceNode,
    MainWindow.selectedReadOnly]
  cases hc : w.currentItem with
  | none => simp
  | some item =>
    have hne := hnode item hc
    simp only [Bool.and_eq_true, Bool.not_eq_true', List.isEmpty_eq_false, beq_iff_eq,
      Option.some.injEq, exists_eq_left']
    constructor
    · rintro ⟨⟨-, -, h2⟩, h3⟩
      exact ⟨h2, h3⟩
    · rintro ⟨h2, h3⟩
      exact ⟨⟨hne, hne, h2⟩, h3⟩

/-- C9 as stated fails while an operation is in flight: with the row of
`/dev/sdb` selected, its node typed as confirmation and the device writable, the
three buttons are enabled by `updateActionEnablement`, and `setBusy(true)` (run
by `runOp`) disables all three although selection, text and read-only flag are
unchanged. -/
theorem buttons_disabled_while_busy :
    exampleWindow.updateActionEnablement.formatBtnEnabled = true ∧
    (exampleWindow.updateActionEnablement.step exampleSubmit).currentItem = some exampleItem ∧
    trimmed (exampleWindow.updateActionEnablement.step exampleSubmit).confirmText
      = exampleItem.deviceNode ∧
    exampleItem.readOnly = false ∧
    (exampleWindow.updateActionEnablement.step exampleSubmit).busy = true ∧
    (exampleWindow.updateActionEnablement.step exampleSubmit).formatBtnEnabled = false ∧
    (exampleWindow.updateActionEnablement.step exampleSubmit).wipeQuickBtnEnabled = false ∧
    (exampleWindow.updateActionEnablement.step exampleSubmit).wipeFullBtnEnabled = false := by
  refine ⟨by decide, by decide, by decide, by decide, by decide, by decide, by decide,
    by decide⟩

/-- C9, amended: for a selection whose device node is not empty,
`updateActionEnablement` (also when run at the end of `setBusy(false)`) enables
the Format button if and only if a row is selected, the trimmed confirmation
text equals the device node of that row, and the row is not read-only, and it
sets the two wipe buttons to the same value; `setBusy(true)` disables all three
buttons whatever the selection, the text and the read-only flag are. -/
theorem updateActionEnablement_enabled (w : MainWindow) (statusLine : QString)
    (hnode : ∀ item, w.currentItem = some item → item.deviceNode ≠ []) :
    (w.updateActionEnablement.formatBtnEnabled = true ↔
      ∃ item, w.currentItem = some item ∧ trimmed w.confirmText = item.deviceNode ∧
        item.readOnly = false) ∧
    w.updateActionEnablement.wipeQuickBtnEnabled = w.updateActionEnablement.formatBtnEnabled ∧
    w.updateActionEnablement.wipeFullBtnEnabled = w.updateActionEnablement.formatBtnEnabled ∧
    ((w.setBusy false statusLine).formatBtnEnabled = true ↔
      ∃ item, w.currentItem = some item ∧ trimmed w.confirmText = item.deviceNode ∧
        item.readOnly = false) ∧
    (w.setBusy false statusLine).wipeQuickBtnEnabled
      = (w.setBusy false statusLine).formatBtnEnabled ∧
    (w.setBusy false statusLine).wipeFullBtnEnabled
      = (w.setBusy false statusLine).formatBtnEnabled ∧
    (w.setBusy true statusLine).formatBtnEnabled = false ∧
    (w.setBusy true statusLine).wipeQuickBtnEnabled = false ∧
    (w.setBusy true statusLine).wipeFullBtnEnabled = false := by
  refine ⟨updateActionEnablement_formatBtn w hnode, rfl, rfl, ?_, rfl, rfl, rfl, rfl, rfl⟩
  exact updateActionEnablement_formatBtn _ hnode

/-- The amended C9 on the example window. -/
theorem updateActionEnablement_enabled_witness :
    exampleWindow.currentItem = some exampleItem ∧
    exampleWindow.updateActionEnablement.formatBtnEnabled = true ∧
    exampleWindow.updateActionEnablement.wipeQuickBtnEnabled = true ∧
    exampleWindow.updateActionEnablement.wipeFullBtnEnabled = true ∧
    (exampleWindow.setBusy true []).formatBtnEnabled = false :=
  have h0 : exampleWindow.currentItem = some exampleItem := by decide
  have h := updateActionEnablement_enabled exampleWindow [] (by
    intro item hi
    rw [h0] at hi
    rw [← Option.some.inj hi]
    decide)
  have hf : exampleWindow.updateActionEnablement.formatBtnEnabled = true :=
    h.1.2 ⟨exampleItem, h0, by decide, rfl⟩
  ⟨h0, hf, h.2.1.trans hf, h.2.2.1.trans hf, h.2.2.2.2.2.2.1⟩

/-- The rows of the list after a refresh are the rows of the records found. -/
theorem refreshDevicesImpl_items (w : MainWindow) (verbose : Bool)
    (found : List UsbDevice × QString) :
    (w.refreshDevicesImpl verbose found).items = found.1.map itemOf := by
  have e1 : ∀ v : MainWindow, v.updateActionEnablement.items = v.items := fun _ => rfl
  have e2 : ∀ (v : MainWindow) (t : QString), (v.setConfirmText t).items = v.items := by
    intro v t
    unfold MainWindow.setConfirmText
    split_ifs <;> rfl
  have e3 : ∀ v : MainWindow, v.onSelectionChanged.items = v.items := by
    intro v
    unfold MainWindow.onSelectionChanged
    rw [e1, e2]
  have e4 : ∀ (v : MainWindow) (d : List UsbDevice),
      (v.noteDevices verbose d).items = v.items := by
    intro v d
    unfold MainWindow.noteDevices
    simp only
    split_ifs <;> rfl
  have e5 : ∀ (v : MainWindow) (t : QString), (v.reselect t).items = v.items := by
    intro v t
    unfold MainWindow.reselect
    split_ifs
    · split
      · rw [e3]
      · rfl
    · rfl
  unfold MainWindow.refreshDevicesImpl
  simp only
  rw [e1, e4, e5]
  rfl

/-- Every row built from what `listUsbRemovable` returns has a non-empty device
node, so the side condition of C9 holds for the rows the window shows. -/
theorem refreshDevicesImpl_items_node (B : Backend σ) (st : σ) (w : MainWindow)
    (verbose : Bool) (item : Item)
    (h : item ∈ (w.refreshDevicesImpl verbose (listUsbRemovable B st)).items) :
    item.deviceNode ≠ [] := by
  rw [refreshDevicesImpl_items] at h
  obtain ⟨d, hd, rfl⟩ := List.mem_map.1 h
  exact (listUsbRemovable_records B st d hd).2.2.2.2.2.2.2.2.1

/-! ## Timers and the running operation -/

theorem updateActionEnablement_sched (w : MainWindow) :
    w.updateActionEnablement.sched = w.sched := rfl

theorem appendLog_sched (w : MainWindow) (line : QString) : (w.appendLog line).sched = w.sched :=
  rfl

theorem setConfirmText_sched (w : MainWindow) (t : QString) :
    (w.setConfirmText t).sched = w.sched := by
  unfold MainWindow.setConfirmText
  split_ifs <;> rfl

theorem onSelectionChanged_sched (w : MainWindow) : w.onSelectionChanged.sched = w.sched := by
  unfold MainWindow.onSelectionChanged
  rw [updateActionEnablement_sched, setConfirmText_sched]

theorem noteError_sched (w : MainWindow) (verbose : Bool) (err : QString) :
    (w.noteError verbose err).sched = w.sched := by
  unfold MainWindow.noteError
  simp only
  split_ifs <;> rfl

theorem clearList_sched (w : MainWindow) : w.clearList.sched = w.sched := by
  unfold MainWindow.clearList
  simp only
  split_ifs
  · exact onSelectionChanged_sched w
  · rfl

theorem reselect_sched (w : MainWindow) (prevDev : QString) :
    (w.reselect prevDev).sched = w.sched := by
  unfold MainWindow.reselect
  split_ifs
  · split
    · rw [onSelectionChanged_sched]; rfl
    · rfl
  · rfl

theorem noteDevices_sched (w : MainWindow) (verbose : Bool) (devices : List UsbDevice) :
    (w.noteDevices verbose devices).sched = w.sched := by
  unfold MainWindow.noteDevices
  simp only
  split_ifs <;> rfl

/-- A refresh leaves the busy flag, both timers and the running tasks alone. -/
theorem refreshDevicesImpl_sched (w : MainWindow) (verbose : Bool)
    (found : List UsbDevice × QString) :
    (w.refreshDevicesImpl verbose found).sched = w.sched := by
  unfold MainWindow.refreshDevicesImpl
  simp only
  rw [updateActionEnablement_sched, noteDevices_sched, reselect_sched]
  show ((w.clearList.countEnumeration.noteError verbose found.2)).sched = w.sched
  rw [noteError_sched]
  show w.clearList.sched = w.sched
  exact clearList_sched w

/-- A refresh is one more call of `listUsbRemovable`. -/
theorem refreshDevicesImpl_enumerations (w : MainWindow) (verbose : Bool)
    (found : List UsbDevice × QString) :
    (w.refreshDevicesImpl verbose found).enumerations = w.enumerations + 1 := by
  have e1 : ∀ v : MainWindow, v.updateActionEnablement.enumerations = v.enumerations :=
    fun _ => rfl
  have e2 : ∀ (v : MainWindow) (t : QString), (v.setConfirmText t).enumerations
      = v.enumerations := by
    intro v t
    unfold MainWindow.setConfirmText
    split_ifs <;> rfl
  have e3 : ∀ v : MainWindow, v.onSelectionChanged.enumerations = v.enumerations := by
    intro v
    unfold MainWindow.onSelectionChanged
    rw [e1, e2]
  have e4 : ∀ (v : MainWindow) (d : List UsbDevice),
      (v.noteDevices verbose d).enumerations = v.enumerations := by
    intro v d
    unfold MainWindow.noteDevices
    simp only
    split_ifs <;> rfl
  have e5 : ∀ (v : MainWindow) (t : QString), (v.reselect t).enumerations = v.enumerations := by
    intro v t
    unfold MainWindow.reselect
    split_ifs
    · split
      · rw [e3]
      · rfl
    · rfl
  have e6 : ∀ (v : MainWindow) (t : QString),
      (v.noteError verbose t).enumerations = v.enumerations := by
    intro v t
    unfold MainWindow.noteError
    simp only
    split_ifs <;> rfl
  have e7 : w.clearList.enumerations = w.enumerations := by
    unfold MainWindow.clearList
    simp only
    split_ifs
    · exact e3 w
    · rfl
  unfold MainWindow.refreshDevicesImpl
  simp only
  rw [e1, e4, e5]
  show (w.clearList.countEnumeration.noteError verbose found.2).enumerations = _
  rw [e6]
  show w.clearList.enumerations + 1 = _
  rw [e7]

theorem SingleFlight.of_sched (v w : MainWindow) (hs : v.sched = w.sched)
    (h : SingleFlight w) : SingleFlight v := by
  simp only [MainWindow.sched, Prod.mk.injEq] at hs
  obtain ⟨s1, s2, -, s4⟩ := hs
  unfold SingleFlight
  rw [s1, s2, s4]
  exact h

theorem SingleFlight.step (w : MainWindow) (e : Event) (h : SingleFlight w) :
    SingleFlight (w.step e) := by
  cases e with
  | submit a b c fn =>
    simp only [MainWindow.step, MainWindow.runOp]
    split_ifs with hb
    · exact h
    · simp only [Bool.not_eq_true] at hb
      have hw := h.2 hb
      simp [SingleFlight, MainWindow.setBusy, MainWindow.appendLog, hw]
  | pollTick f =>
    simp only [MainWindow.step, MainWindow.refreshDevicesSilent]
    split_ifs
    · exact SingleFlight.of_sched _ w (refreshDevicesImpl_sched w false f) h
    · exact h
  | interfacesAdded => exact h
  | interfacesRemoved => exact h
  | debounceExpiry f =>
    simp only [MainWindow.step, MainWindow.refreshDevicesSilent]
    split_ifs
    · apply SingleFlight.of_sched _ { w with debounceActive := false }
        (refreshDevicesImpl_sched _ false f)
      exact h
    · exact h
  | completion r f =>
    simp only [MainWindow.step, MainWindow.onFinished]
    cases hw : w.workers with
    | nil => exact h
    | cons task rest =>
      simp only
      have hbusy : w.busy = true := by
        by_contra hb
        simp only [Bool.not_eq_true] at hb
        have := h.2 hb
        rw [hw] at this
        cases this
      have hrest : rest = [] := by
        have := (h.1 hbusy).2
        rw [hw] at this
        simpa using this
      subst hrest
      have key : ∀ v : MainWindow, v.busy = false → v.workers = [] →
          SingleFlight (v.refreshDevices f) := by
        intro v h1 h2
        apply SingleFlight.of_sched _ v (refreshDevicesImpl_sched v true f)
        exact ⟨fun hb => absurd (h1.symm.trans hb) (by decide), fun _ => h2⟩
      split_ifs <;> exact key _ rfl rfl

/-- Single flight holds in every state reached from the constructed window: at
most one task runs, and while `busy_` is set the poll timer stays stopped. -/
theorem poll_timer_suspended_while_busy (found : List UsbDevice × QString)
    (events : List Event) : SingleFlight ((MainWindow.initial found).run events) := by
  have inv : ∀ (evs : List Event) (w : MainWindow), SingleFlight w → SingleFlight (w.run evs) := by
    intro evs
    induction evs with
    | nil => intro w h; exact h
    | cons e es ih =>
      intro w h
      exact ih _ (SingleFlight.step w e h)
  apply inv
  apply SingleFlight.of_sched _ ({ pollActive := true } : MainWindow)
    (refreshDevicesImpl_sched _ true found)
  exact ⟨fun hb => absurd hb (by decide), fun _ => rfl⟩

/-- C8, on the events submit, add notification, debounce expiry: after the
submission `busy_` is set and both timers are stopped; the notification starts
the debounce timer again although the operation is still in flight; when the
timer expires `refreshDevicesImpl` runs, calls `listUsbRemovable` and rebuilds
the list (here the stick is gone and the list becomes empty) while the
operation is still in flight. -/
theorem refresh_runs_while_busy :
    (constructedWindow.run [exampleSubmit]).busy = true ∧
    (constructedWindow.run [exampleSubmit]).pollActive = false ∧
    (constructedWindow.run [exampleSubmit]).debounceActive = false ∧
    (constructedWindow.run [exampleSubmit, Event.interfacesAdded]).busy = true ∧
    (constructedWindow.run [exampleSubmit, Event.interfacesAdded]).debounceActive = true ∧
    (constructedWindow.run [exampleSubmit, Event.interfacesAdded,
        Event.debounceExpiry foundNothing]).busy = true ∧
    (constructedWindow.run [exampleSubmit, Event.interfacesAdded,
        Event.debounceExpiry foundNothing]).workers.length = 1 ∧
    (constructedWindow.run [exampleSubmit, Event.interfacesAdded,
        Event.debounceExpiry foundNothing]).enumerations
      = (constructedWindow.run [exampleSubmit, Event.interfacesAdded]).enumerations + 1 ∧
    (constructedWindow.run [exampleSubmit, Event.interfacesAdded]).items.length = 1 ∧
    (constructedWindow.run [exampleSubmit, Event.interfacesAdded,
        Event.debounceExpiry foundNothing]).items = [] := by
  refine ⟨by decide, by decide, by decide, by decide, by decide, by decide, by decide,
    by decide, by decide, by decide⟩

/-! ## Decoding byte arrays -/

theorem takeWhile_append_zero (t : QByteArray) :
    (t ++ [0]).takeWhile (fun b => b != 0) = t.takeWhile (fun b => b != 0) := by
  induction t with
  | nil => simp
  | cons a t ih =>
    simp only [List.cons_append, List.takeWhile_cons]
    split_ifs
    · rw [ih]
    · rfl

theorem takeWhile_ne_zero_of_not_mem (t : QByteArray) (h : 0 ∉ t) :
    t.takeWhile (fun b => b != 0) = t := by
  rw [List.takeWhile_eq_self_iff]
  intro b hb
  have : b ≠ 0 := fun hb0 => h (hb0 ▸ hb)
  simpa using this

/-- What `bytesToString` computes on a byte array: nothing for the empty array,
otherwise the decoding of the bytes in front of the first NUL. -/
theorem bytesToString_eq (codec : QByteArray → QString) (bs : QByteArray) :
    bytesToString codec (QVariant.byteArray bs)
      = if bs = [] then [] else codec (bs.takeWhile (fun b => b != 0)) := by
  unfold bytesToString
  simp only [QVariant.toByteArray, List.isEmpty_iff]
  by_cases hbs : bs = []
  · simp [hbs]
  · simp only [hbs, if_false]
    by_cases hl : bs.getLast? == some 0
    · simp only [hl, if_true]
      have hl2 : bs.getLast? = some 0 := by simpa using hl
      obtain ⟨t, rfl⟩ : ∃ t, bs = t ++ [0] := by
        refine ⟨bs.dropLast, ?_⟩
        have h1 := List.dropLast_append_getLast hbs
        rw [List.getLast?_eq_getLast _ hbs] at hl2
        rw [← Option.some.inj hl2]
        exact h1.symm
      rw [List.dropLast_concat, takeWhile_append_zero]
    · simp only [hl]
      rfl

/-- C16 as stated fails on byte sequences holding a NUL in front of their last
byte: `a NUL b` does not end in NUL, yet only `a` is decoded; of `a NUL NUL` both
NUL bytes are dropped, not one. -/
theorem bytesToString_stops_at_first_nul :
    bytesToString latin1 (QVariant.byteArray [97, 0, 98]) = qs "a" ∧
    bytesToString latin1 (QVariant.byteArray [97, 0, 98]) ≠ latin1 [97, 0, 98] ∧
    bytesToString latin1 (QVariant.byteArray [97, 0, 0]) = qs "a" ∧
    bytesToString latin1 (QVariant.byteArray [97, 0, 0]) ≠ latin1 [97, 0] := by
  refine ⟨by decide, by decide, by decide, by decide⟩

/-- C16, amended: for a byte sequence `t` without NUL, `bytesToString` returns
the decoding of `t` both on `t` followed by one NUL (exactly that terminator is
removed) and on `t` itself when it is not empty; the empty sequence decodes to
the empty string; on any other sequence the decoding stops in front of the
first NUL. -/
theorem bytesToString_terminator (codec : QByteArray → QString) (t : QByteArray)
    (h : 0 ∉ t) :
    bytesToString codec (QVariant.byteArray (t ++ [0])) = codec t ∧
    (t ≠ [] → bytesToString codec (QVariant.byteArray t) = codec t) ∧
    bytesToString codec (QVariant.byteArray []) = [] ∧
    ∀ bs : QByteArray, bs ≠ [] →
      bytesToString codec (QVariant.byteArray bs) = codec (bs.takeWhile (fun b => b != 0)) := by
  refine ⟨?_, ?_, ?_, ?_⟩
  · rw [bytesToString_eq, if_neg (by simp), takeWhile_append_zero,
      takeWhile_ne_zero_of_not_mem t h]
  · intro ht
    rw [bytesToString_eq, if_neg ht, takeWhile_ne_zero_of_not_mem t h]
  · rw [bytesToString_eq, if_pos rfl]
  · intro bs hbs
    rw [bytesToString_eq, if_neg hbs]

/-- The node bytes of scenario A, `/dev/sdb` followed by NUL, decode to
`/dev/sdb`. -/
theorem bytesToString_terminator_witness :
    (0 : Nat) ∉ (qs "/dev/sdb").map Char.toNat ∧
    bytesToString latin1 (QVariant.byteArray (cstr "/dev/sdb")) = qs "/dev/sdb" :=
  have h : (0 : Nat) ∉ (qs "/dev/sdb").map Char.toNat := by decide
  ⟨h, (bytesToString_terminator latin1 ((qs "/dev/sdb").map Char.toNat) h).1.trans (by decide)⟩

/-! ## Tolerated unmount errors -/

theorem containsStr_map (f : Char → Char) (pat s : QString) (h : containsStr pat s = true) :
    containsStr (pat.map f) (s.map f) = true := by
  have hp : ∀ t : QString, pat.isPrefixOf t = true → (pat.map f).isPrefixOf (t.map f) = true := by
    intro t ht
    rw [List.isPrefixOf_iff_prefix] at ht ⊢
    exact ht.map f
  induction s with
  | nil =>
    simp only [containsStr] at h ⊢
    exact hp [] h
  | cons c cs ih =>
    simp only [containsStr, Bool.or_eq_true, List.map_cons] at h ⊢
    rcases h with h | h
    · exact Or.inl (hp _ h)
    · exact Or.inr (ih h)

/-- C11: when the filesystem interface of the block is absent
(`MountPoints` cannot be read) `unmountIfMounted` succeeds without issuing an
`Unmount` call; when it is present and `Unmount` is answered with an error, the
function succeeds, setting no error, if the message contains "not mounted" in
any letter case, and fails (with "Unmount failed: " and the message) for any
other message.  A message contains "not mounted" in any letter case as soon as
it contains a string that differs from "not mounted" in letter case only. -/
theorem unmountIfMounted_tolerates_not_mounted (B : Backend σ) (st : σ) (p : QString) :
    (hasFilesystem B st p = false →
      (unmountIfMounted B st p).result = Status.ok ∧ (unmountIfMounted B st p).calls = []) ∧
    (hasFilesystem B st p = true → ∀ e : DBusError, (B.unmount st p).1 = Reply.error e →
      (containsCI e.message (qs "not mounted") = true →
        (unmountIfMounted B st p).result = Status.ok) ∧
      (containsCI e.message (qs "not mounted") = false →
        (unmountIfMounted B st p).result
          = Status.failed (qs "Unmount failed: " ++ e.message))) ∧
    (∀ m v : QString, v.map foldCase = (qs "not mounted").map foldCase →
      containsStr v m = true → containsCI m (qs "not mounted") = true) := by
  refine ⟨?_, ?_, ?_⟩
  · intro h
    unfold hasFilesystem at h
    simp [unmountIfMounted, h]
  · intro h e he
    unfold hasFilesystem at h
    constructor
    · intro hm
      simp [unmountIfMounted, h, he, hm]
    · intro hm
      simp [unmountIfMounted, h, he, hm, containsCI_Not_mounted]
  · intro m v hv hc
    unfold containsCI
    rw [← hv]
    exact containsStr_map foldCase v m hc

/-- C11 on the test service: unmounting the unmounted `sdb` is answered "Device
is not mounted" and succeeds; the busy `sdb1` fails; "NOT MOUNTED" is
tolerated as well. -/
theorem unmountIfMounted_tolerates_not_mounted_witness :
    (unmountIfMounted (testBackend scenarioBusy true) [] (blockPath "sdb")).result = Status.ok ∧
    (unmountIfMounted (testBackend scenarioBusy true) [] (blockPath "sdb1")).result
      = Status.failed (qs "Unmount failed: target is busy") ∧
    containsCI (qs "Device is NOT MOUNTED") (qs "not mounted") = true :=
  have h := unmountIfMounted_tolerates_not_mounted (testBackend scenarioBusy true) []
    (blockPath "sdb")
  have h1 := unmountIfMounted_tolerates_not_mounted (testBackend scenarioBusy true) []
    (blockPath "sdb1")
  ⟨((h.2.1 (by decide)) notMountedError (by decide)).1 (by decide),
   ((h1.2.1 (by decide)) busyError (by decide)).2 (by decide),
   h.2.2 (qs "Device is NOT MOUNTED") (qs "NOT MOUNTED") (by decide) (by decide)⟩

/-! ## Records and listed blocks -/

theorem foldl_listStep_out_eq (B : Backend σ) (st : σ) (blocks : List QString)
    (acc : ListState) :
    (blocks.foldl (listStep B st) acc).out = acc.out ++ blocks.filterMap (acceptedRecord B st) := by
  induction blocks generalizing acc with
  | nil => simp
  | cons p ps ih =>
    rw [List.foldl_cons, ih, List.filterMap_cons]
    unfold listStep acceptedRecord
    cases classifyBlock B st p <;> simp

theorem listUsbRemovable_eq_filterMap (B : Backend σ) (st : σ) :
    (listUsbRemovable B st).1 = (listedBlocks B st).filterMap (acceptedRecord B st) := by
  unfold listUsbRemovable listedBlocks
  by_cases hv : B.isValid st kManagerPath kManagerIface = true
  · simp only [hv, Bool.not_true, Bool.false_eq_true, if_false, if_true]
    cases hb : B.getBlockDevices st with
    | error e => simp
    | value blocks =>
      simp only
      have := foldl_listStep_out_eq B st blocks {}
      split_ifs <;> simpa using this
  · simp only [Bool.not_eq_true] at hv
    simp [hv]

theorem acceptedRecord_blockObject (B : Backend σ) (st : σ) (p : QString) (d : UsbDevice)
    (h : acceptedRecord B st p = some d) : d.blockObject = p := by
  unfold acceptedRecord at h
  cases hc : classifyBlock B st p <;> simp only [hc] at h <;> try cases h
  exact (classifyBlock_accept B st p _ hc).1

theorem map_blockObject_filterMap (B : Backend σ) (st : σ) (l : List QString) :
    (l.filterMap (acceptedRecord B st)).map (fun d => d.blockObject)
      = l.filter (fun p => (acceptedRecord B st p).isSome) := by
  induction l with
  | nil => rfl
  | cons p ps ih =>
    rw [List.filterMap_cons, List.filter_cons]
    cases h : acceptedRecord B st p with
    | none => simpa using ih
    | some d =>
      simp only [List.map_cons, Option.isSome_some, if_true, ih,
        acceptedRecord_blockObject B st p d h]

/-- C15 as stated fails when the service lists a block object twice: both
entries pass the filters and two records with the same `blockObject` are
returned. -/
theorem listUsbRemovable_repeats_listed_block :
    listedBlocks (testBackend (scenarioA ++ scenarioA) true) []
      = [blockPath "sdb", blockPath "sdb"] ∧
    (listUsbRemovable (testBackend (scenarioA ++ scenarioA) true) []).1.map
        (fun d => d.blockObject) = [blockPath "sdb", blockPath "sdb"] ∧
    ¬ ((listUsbRemovable (testBackend (scenarioA ++ scenarioA) true) []).1.map
        (fun d => d.blockObject)).Nodup := by
  refine ⟨by decide, by decide, by decide⟩

/-- C15, amended: for every state of the service, the `blockObject` identifiers
of the records returned by one `listUsbRemovable` call are the listed block
objects that pass the filters, in listing order and as often as they are
listed; they are pairwise distinct whenever the listing of the service has no
repeated object path. -/
theorem listUsbRemovable_blockObjects_nodup (B : Backend σ) (st : σ) :
    (listUsbRemovable B st).1.map (fun d => d.blockObject)
      = (listedBlocks B st).filter (fun p => (acceptedRecord B st p).isSome) ∧
    ((listedBlocks B st).Nodup →
      ((listUsbRemovable B st).1.map (fun d => d.blockObject)).Nodup) := by
  have e : (listUsbRemovable B st).1.map (fun d => d.blockObject)
      = (listedBlocks B st).filter (fun p => (acceptedRecord B st p).isSome) := by
    rw [listUsbRemovable_eq_filterMap, map_blockObject_filterMap]
  exact ⟨e, fun h => e ▸ h.filter _⟩

/-- Scenario B lists `sdb` and `sdb1` once each, and the one record is `sdb`;
when `sdb` is listed twice, both entries are among the identifiers. -/
theorem listUsbRemovable_blockObjects_nodup_witness :
    (listedBlocks (testBackend scenarioB true) []).Nodup ∧
    ((listUsbRemovable (testBackend scenarioB true) []).1.map
      (fun d => d.blockObject)).Nodup ∧
    (listUsbRemovable (testBackend (scenarioA ++ scenarioA) true) []).1.map
        (fun d => d.blockObject) = [blockPath "sdb", blockPath "sdb"] :=
  have h : (listedBlocks (testBackend scenarioB true) []).Nodup := by decide
  ⟨h, (listUsbRemovable_blockObjects_nodup (testBackend scenarioB true) []).2 h,
    (listUsbRemovable_blockObjects_nodup (testBackend (scenarioA ++ scenarioA) true) []).1.trans
      (by decide)⟩

/-! ## Failed property reads -/

theorem getProp_congr (B1 B2 : Backend σ) (s1 s2 : σ)
    (hv : B1.isValid s1 = B2.isValid s2)
    (hg : ∀ o i p, B1.get s1 o i p = B2.get s2 o i p ∨
      ∃ e1 e2, B1.get s1 o i p = Reply.error e1 ∧ B2.get s2 o i p = Reply.error e2)
    (o i p : QString) : getProp B1 s1 o i p = getProp B2 s2 o i p := by
  unfold getProp
  rw [hv]
  split_ifs
  · rfl
  · rcases hg o i p with h | ⟨e1, e2, h1, h2⟩
    · rw [h]
    · rw [h1, h2]

theorem classifyBlock_congr (B1 B2 : Backend σ) (s1 s2 : σ)
    (hp : ∀ o i p, getProp B1 s1 o i p = getProp B2 s2 o i p)
    (hc : B1.fromLocal8Bit = B2.fromLocal8Bit) (b : QString) :
    classifyBlock B1 s1 b = classifyBlock B2 s2 b := by
  unfold classifyBlock deviceNodeOf
  simp only [hp, hc]

theorem listUsbRemovable_congr (B1 B2 : Backend σ) (s1 s2 : σ)
    (hv : B1.isValid s1 = B2.isValid s2)
    (hl : B1.getBlockDevices s1 = B2.getBlockDevices s2)
    (hp : ∀ o i p, getProp B1 s1 o i p = getProp B2 s2 o i p)
    (hc : B1.fromLocal8Bit = B2.fromLocal8Bit) :
    listUsbRemovable B1 s1 = listUsbRemovable B2 s2 := by
  have hs : listStep B1 s1 = listStep B2 s2 := by
    funext acc b
    unfold listStep
    rw [classifyBlock_congr B1 B2 s1 s2 hp hc b]
  unfold listUsbRemovable
  rw [hv, hl, hs]

/-- A `HintSystem` read lost in transport: `getProp` returns the invalid
variant, `toBool` of it is false, and the disk that the service marks as a
system disk is listed. -/
theorem hint_read_lost_in_transport :
    (faultyBackend scenarioSystem [hintSystemRead]).get [] (blockPath "sdb") kBlockIface
        (qs "HintSystem") = Reply.error transportError ∧
    (listUsbRemovable (testBackend scenarioSystem true) []).1 = [] ∧
    (listUsbRemovable (faultyBackend scenarioSystem [hintSystemRead]) []).1.map
        (fun d => d.blockObject) = [blockPath "sdb"] := by
  refine ⟨by decide, by decide, by decide⟩

/-- C14 as stated fails: in scenario B the read of `Partition.Number` on the
partition `sdb1` is lost in transport.  `getProp` returns for it what it returns
for the `Partition.Number` that `sdb` does not have; the loop of
`listUsbRemovable` no longer takes `sdb1` for a partition (it is excluded by the
whole-disk test further down), and no error is reported to the caller. -/
theorem partition_probe_lost_in_transport :
    (faultyBackend scenarioB [partitionNumberRead]).get [] (blockPath "sdb1") kPartitionIface
        (qs "Number") = Reply.error transportError ∧
    (faultyBackend scenarioB [partitionNumberRead]).get [] (blockPath "sdb") kPartitionIface
        (qs "Number") = Reply.error missingError ∧
    getProp (faultyBackend scenarioB [partitionNumberRead]) [] (blockPath "sdb1")
        kPartitionIface (qs "Number") = (QVariant.invalid, false) ∧
    getProp (faultyBackend scenarioB [partitionNumberRead]) [] (blockPath "sdb")
        kPartitionIface (qs "Number") = (QVariant.invalid, false) ∧
    classifyBlock (testBackend scenarioB true) [] (blockPath "sdb1") = Verdict.partition ∧
    classifyBlock (faultyBackend scenarioB [partitionNumberRead]) [] (blockPath "sdb1")
      = Verdict.notWholeDisk ∧
    (listUsbRemovable (faultyBackend scenarioB [partitionNumberRead]) []).2 = [] := by
  refine ⟨by decide, by decide, by decide, by decide, by decide, by decide, by decide⟩

/-! ## Logging of refreshes -/

theorem updateActionEnablement_journal (w : MainWindow) :
    w.updateActionEnablement.journal = w.journal := rfl

theorem setConfirmText_journal (w : MainWindow) (t : QString) :
    (w.setConfirmText t).journal = w.journal := by
  unfold MainWindow.setConfirmText
  split_ifs <;> rfl

theorem onSelectionChanged_journal (w : MainWindow) : w.onSelectionChanged.journal = w.journal := by
  unfold MainWindow.onSelectionChanged
  rw [updateActionEnablement_journal, setConfirmText_journal]

theorem clearList_journal (w : MainWindow) : w.clearList.journal = w.journal := by
  unfold MainWindow.clearList
  simp only
  split_ifs
  · exact onSelectionChanged_journal w
  · rfl

theorem reselect_journal (w : MainWindow) (prevDev : QString) :
    (w.reselect prevDev).journal = w.journal := by
  unfold MainWindow.reselect
  split_ifs
  · split
    · rw [onSelectionChanged_journal]; rfl
    · rfl
  · rfl

theorem noteError_journal (w : MainWindow) (verbose : Bool) (err : QString) :
    (w.noteError verbose err).journal
      = (w.log ++ errorLog verbose w.lastAutoError err,
         nextAutoError verbose w.lastAutoError err, w.lastDeviceNodes) := by
  have hn : startsWith err
      (qs "UDisks2 reachable, but filter returned 0 USB whole-disk devices") = noUsbInfo err := rfl
  unfold MainWindow.noteError errorLog nextAutoError
  simp only [MainWindow.journal, hn]
  by_cases he : err = []
  · subst he
    by_cases hl : w.lastAutoError = []
    · simp [hl]
    · simp [hl]
  · by_cases hv : verbose = true
    · simp [he, hv, MainWindow.appendLog]
    · by_cases hi : noUsbInfo err = true
      · by_cases hl : w.lastAutoError = []
        · simp [he, hv, hi, hl]
        · simp [he, hv, hi, hl]
      · by_cases hd : err = w.lastAutoError
        · subst hd
          simp [he, hv, hi]
        · simp [he, hv, hi, hd, MainWindow.appendLog]

theorem noteDevices_journal (w : MainWindow) (verbose : Bool) (devices : List UsbDevice) :
    (w.noteDevices verbose devices).journal
      = (w.log ++ deviceLog verbose w.lastDeviceNodes devices, w.lastAutoError,
         nextSnapshot verbose w.lastDeviceNodes devices) := by
  have hn : devices.map (fun d => d.deviceNode) = deviceNodes devices := rfl
  unfold MainWindow.noteDevices deviceLog nextSnapshot
  simp only [MainWindow.journal, hn]
  by_cases hv : verbose = true
  · simp [hv, MainWindow.appendLog]
  · by_cases hd : deviceNodes devices = w.lastDeviceNodes
    · simp [hv, hd]
    · simp [hv, hd, MainWindow.appendLog]

/-- The log, the remembered error and the remembered device nodes after a
refresh. -/
theorem refreshDevicesImpl_journal (w : MainWindow) (verbose : Bool)
    (found : List UsbDevice × QString) :
    (w.refreshDevicesImpl verbose found).journal
      = (w.log ++ errorLog verbose w.lastAutoError found.2
            ++ deviceLog verbose w.lastDeviceNodes found.1,
         nextAutoError verbose w.lastAutoError found.2,
         nextSnapshot verbose w.lastDeviceNodes found.1) := by
  have h1 : (w.clearList.countEnumeration.noteError verbose found.2).journal
      = (w.log ++ errorLog verbose w.lastAutoError found.2,
         nextAutoError verbose w.lastAutoError found.2, w.lastDeviceNodes) := by
    rw [noteError_journal]
    have hc : w.clearList.countEnumeration.journal = w.journal := clearList_journal w
    simp only [MainWindow.journal, Prod.mk.injEq] at hc
    obtain ⟨c1, c2, c3⟩ := hc
    rw [c1, c2, c3]
  have h2 : (((w.clearList.countEnumeration.noteError verbose found.2).populate
      found.1).reselect w.selectedDeviceNode).journal
      = (w.clearList.countEnumeration.noteError verbose found.2).journal := by
    rw [reselect_journal]
    rfl
  unfold MainWindow.refreshDevicesImpl
  simp only
  rw [updateActionEnablement_journal, noteDevices_journal]
  rw [h1] at h2
  simp only [MainWindow.journal, Prod.mk.injEq] at h2
  obtain ⟨c1, c2, c3⟩ := h2
  rw [c1, c2, c3]

theorem runRefreshes_lastDeviceNodes (w : MainWindow)
    (hs : List (Bool × (List UsbDevice × QString))) :
    (w.runRefreshes hs).lastDeviceNodes = silentSnapshot w.lastDeviceNodes hs := by
  induction hs generalizing w with
  | nil => rfl
  | cons h hs ih =>
    have hstep : w.runRefreshes (h :: hs) = (w.refreshDevicesImpl h.1 h.2).runRefreshes hs := rfl
    have hj := refreshDevicesImpl_journal w h.1 h.2
    simp only [MainWindow.journal, Prod.mk.injEq] at hj
    rw [hstep, ih, hj.2.2]
    rfl

/-- C13 as stated fails.  A verbose refresh does not store the device nodes it
enumerated: after the verbose refresh of the constructor found `/dev/sdb`, a
silent refresh that finds the same sequence still logs "Auto: now 1 USB
device(s) detected.".  And a silent refresh logs an error line for a new
enumeration error although the (empty) device sequence did not change. -/
theorem silent_refresh_logs_unchanged_sequence :
    deviceNodes foundStick.1 = [qs "/dev/sdb"] ∧
    (freshWindow.runRefreshes [(true, foundStick), (false, foundStick)]).log
      = [qs "Found 1 USB device(s).", qs "Auto: now 1 USB device(s) detected."] ∧
    deviceNodes foundUnreachable.1 = [] ∧
    (freshWindow.runRefreshes [(false, foundUnreachable)]).log
      = [qs "ERROR: Can't talk to udisksd on the system D-Bus. Is the udisks2 service running?"] := by
  refine ⟨by decide, by decide, by decide, by decide⟩

/-- C13, amended: after any sequence of verbose and silent refreshes, a silent
refresh appends to the log the error line of `errorLog` (one "ERROR: " line
when enumeration reports an error that is not the zero-devices diagnostic and
differs from the remembered error) and then the device-count line of
`deviceLog`: the line "Auto: now N USB device(s) detected." exactly when the
ordered sequence of device nodes it enumerated differs from the sequence
enumerated by the most recent silent refresh (the empty sequence before the
first one), and no device-count line when the two are equal.  A silent refresh
stores its sequence as the new snapshot, a verbose refresh leaves the snapshot
as it is. -/
theorem silent_refresh_log (w : MainWindow) (hs : List (Bool × (List UsbDevice × QString)))
    (found : List UsbDevice × QString) :
    ((w.runRefreshes hs).refreshDevicesSilent found).log
      = (w.runRefreshes hs).log ++ errorLog false (w.runRefreshes hs).lastAutoError found.2
          ++ deviceLog false (silentSnapshot w.lastDeviceNodes hs) found.1 ∧
    (deviceNodes found.1 = silentSnapshot w.lastDeviceNodes hs →
      deviceLog false (silentSnapshot w.lastDeviceNodes hs) found.1 = []) ∧
    (deviceNodes found.1 ≠ silentSnapshot w.lastDeviceNodes hs →
      deviceLog false (silentSnapshot w.lastDeviceNodes hs) found.1
        = [qs "Auto: now " ++ decimal found.1.length ++ qs " USB device(s) detected."]) ∧
    silentSnapshot w.lastDeviceNodes (hs ++ [(false, found)]) = deviceNodes found.1 ∧
    silentSnapshot w.lastDeviceNodes (hs ++ [(true, found)])
      = silentSnapshot w.lastDeviceNodes hs := by
  refine ⟨?_, ?_, ?_, ?_, ?_⟩
  · have hj := refreshDevicesImpl_journal (w.runRefreshes hs) false found
    simp only [MainWindow.journal, Prod.mk.injEq] at hj
    rw [MainWindow.refreshDevicesSilent, hj.1, runRefreshes_lastDeviceNodes]
  · intro h
    simp [deviceLog, h]
  · intro h
    simp [deviceLog, h]
  · simp [silentSnapshot, nextSnapshot]
  · simp [silentSnapshot, nextSnapshot]

theorem foldl_listStep_counters (B : Backend σ) (st : σ) (blocks : List QString)
    (acc : ListState) :
    (blocks.foldl (listStep B st) acc).blocks = acc.blocks + blocks.length ∧
    (blocks.foldl (listStep B st) acc).partitions
      = acc.partitions + countVerdict B st blocks Verdict.partition ∧
    (blocks.foldl (listStep B st) acc).noDrive
      = acc.noDrive + countVerdict B st blocks Verdict.noDrive ∧
    (blocks.foldl (listStep B st) acc).nonUsb
      = acc.nonUsb + countVerdict B st blocks Verdict.nonUsb ∧
    (blocks.foldl (listStep B st) acc).hinted
      = acc.hinted + countVerdict B st blocks Verdict.hinted ∧
    (blocks.foldl (listStep B st) acc).notWholeDisk
      = acc.notWholeDisk + countVerdict B st blocks Verdict.notWholeDisk ∧
    (blocks.foldl (listStep B st) acc).noDev
      = acc.noDev + countVerdict B st blocks Verdict.noDev := by
  induction blocks generalizing acc with
  | nil => simp [countVerdict]
  | cons p ps ih =>
    rw [List.foldl_cons]
    obtain ⟨h1, h2, h3, h4, h5, h6, h7⟩ := ih (listStep B st acc p)
    rw [h1, h2, h3, h4, h5, h6, h7]
    unfold listStep
    cases hc : classifyBlock B st p <;>
      simp [countVerdict, List.countP_cons, hc] <;> omega

/-- The zero-devices diagnostic is classified as informational. -/
theorem noUsbInfo_zeroDevicesMessage (acc : ListState) :
    noUsbInfo (zeroDevicesMessage acc) = true := by
  have hsplit : qs "UDisks2 reachable, but filter returned 0 USB whole-disk devices. "
      = qs "UDisks2 reachable, but filter returned 0 USB whole-disk devices" ++ qs ". " := by
    decide
  unfold noUsbInfo startsWith zeroDevicesMessage
  rw [hsplit, List.isPrefixOf_iff_prefix]
  simp only [List.append_assoc]
  exact List.prefix_append _ _

theorem listUsbRemovable_of_none (B : Backend σ) (st : σ) (blocks : List QString)
    (hv : B.isValid st kManagerPath kManagerIface = true)
    (hb : B.getBlockDevices st = Reply.value blocks)
    (hnone : ∀ p ∈ blocks, acceptedRecord B st p = none) :
    listUsbRemovable B st = ([], zeroDevicesMessage (blocks.foldl (listStep B st) {})) := by
  have hout : (blocks.foldl (listStep B st) {}).out = [] := by
    rw [foldl_listStep_out_eq]
    have : blocks.filterMap (acceptedRecord B st) = [] := by
      rw [List.filterMap_eq_nil_iff]
      exact hnone
    rw [this]
    rfl
  unfold listUsbRemovable
  simp only [hv, hb, Bool.not_true, Bool.false_eq_true, if_false, hout, List.isEmpty_nil, if_true]

/-- C12: when the manager is reachable, the block listing succeeds and no listed
block passes the filters, `listUsbRemovable` returns no record together with
the diagnostic that embeds the counters of listed blocks and of the blocks
excluded as partition, without drive, not on USB, hinted, not a whole disk and
not under `/dev/`; the diagnostic is classified as informational, and a silent
refresh that receives this result leaves no remembered error and appends no
error line to the log (it appends at most the line "Auto: now 0 USB device(s)
detected."). -/
theorem zero_devices_is_informational (B : Backend σ) (st : σ) (blocks : List QString)
    (hv : B.isValid st kManagerPath kManagerIface = true)
    (hb : B.getBlockDevices st = Reply.value blocks)
    (hnone : ∀ p ∈ blocks, acceptedRecord B st p = none) :
    (listUsbRemovable B st).1 = [] ∧
    (listUsbRemovable B st).2 =
      qs "UDisks2 reachable, but filter returned 0 USB whole-disk devices. " ++
      qs "blocks=" ++ decimal blocks.length ++
      qs " partitions=" ++ decimal (countVerdict B st blocks Verdict.partition) ++
      qs " noDrive=" ++ decimal (countVerdict B st blocks Verdict.noDrive) ++
      qs " nonUsb=" ++ decimal (countVerdict B st blocks Verdict.nonUsb) ++
      qs " hinted=" ++ decimal (countVerdict B st blocks Verdict.hinted) ++
      qs " notWholeDisk=" ++ decimal (countVerdict B st blocks Verdict.notWholeDisk) ++
      qs " noDev=" ++ decimal (countVerdict B st blocks Verdict.noDev) ∧
    noUsbInfo (listUsbRemovable B st).2 = true ∧
    ∀ w : MainWindow,
      (w.refreshDevicesSilent (listUsbRemovable B st)).lastAutoError = [] ∧
      (w.refreshDevicesSilent (listUsbRemovable B st)).log
        = w.log ++ deviceLog false w.lastDeviceNodes [] ∧
      ∀ line ∈ deviceLog false w.lastDeviceNodes [],
        line = qs "Auto: now 0 USB device(s) detected." := by
  have hl := listUsbRemovable_of_none B st blocks hv hb hnone
  have hinfo := noUsbInfo_zeroDevicesMessage (blocks.foldl (listStep B st) {})
  refine ⟨by rw [hl], ?_, by rw [hl]; exact hinfo, ?_⟩
  · rw [hl]
    obtain ⟨h1, h2, h3, h4, h5, h6, h7⟩ := foldl_listStep_counters B st blocks {}
    simp only [zeroDevicesMessage, h1, h2, h3, h4, h5, h6, h7, Nat.zero_add]
  · intro w
    have hj := refreshDevicesImpl_journal w false (listUsbRemovable B st)
    simp only [MainWindow.journal, Prod.mk.injEq] at hj
    obtain ⟨j1, j2, -⟩ := hj
    rw [hl] at j1 j2 ⊢
    have he : errorLog false w.lastAutoError
        (zeroDevicesMessage (blocks.foldl (listStep B st) {})) = [] := by
      unfold errorLog
      simp [hinfo]
    have hn : nextAutoError false w.lastAutoError
        (zeroDevicesMessage (blocks.foldl (listStep B st) {})) = [] := by
      unfold nextAutoError
      simp [hinfo]
    refine ⟨?_, ?_, ?_⟩
    · rw [MainWindow.refreshDevicesSilent, j2, hn]
    · rw [MainWindow.refreshDevicesSilent, j1, he, List.append_nil]
    · intro line hline
      unfold deviceLog at hline
      simp only [Bool.false_eq_true, if_false] at hline
      split_ifs at hline
      · simp only [List.mem_singleton] at hline
        rw [hline]
        decide
      · cases hline

/-- The hinted system disk alone: no record, the diagnostic counts one block and
one hinted block, and a silent refresh that remembered an error forgets it and
logs no error. -/
theorem zero_devices_is_informational_witness :
    (testBackend scenarioSystem true).getBlockDevices [] = Reply.value [blockPath "sdb"] ∧
    (listUsbRemovable (testBackend scenarioSystem true) []).2 =
      qs ("UDisks2 reachable, but filter returned 0 USB whole-disk devices. " ++
        "blocks=1 partitions=0 noDrive=0 nonUsb=0 hinted=1 notWholeDisk=0 noDev=0") ∧
    (({ freshWindow with lastAutoError := qs "GetBlockDevices failed: timeout" }
        : MainWindow).refreshDevicesSilent
      (listUsbRemovable (testBackend scenarioSystem true) [])).lastAutoError = [] ∧
    (({ freshWindow with lastAutoError := qs "GetBlockDevices failed: timeout" }
        : MainWindow).refreshDevicesSilent
      (listUsbRemovable (testBackend scenarioSystem true) [])).log = [] :=
  have h := zero_devices_is_informational (testBackend scenarioSystem true) []
    [blockPath "sdb"] (by decide) (by decide) (by decide)
  have hw := h.2.2.2 ({ freshWindow with lastAutoError := qs "GetBlockDevices failed: timeout" })
  ⟨by decide, h.2.1.trans (by decide), hw.1, hw.2.1.trans (by decide)⟩

/-! ## Failed reads during enumeration -/

theorem classifyBlock_partition_iff (B : Backend σ) (st : σ) (b : QString) :
    classifyBlock B st b = Verdict.partition ↔
      (getProp B st b kPartitionIface (qs "Number")).2 = true := by
  unfold classifyBlock
  by_cases h : (getProp B st b kPartitionIface (qs "Number")).2 = true
  · simp [h]
  · rw [if_neg h]
    simp only [h, iff_false]
    split_ifs
    all_goals exact Iff.rfl

theorem classifyBlock_noDrive (B : Backend σ) (st : σ) (b : QString)
    (hn : (getProp B st b kPartitionIface (qs "Number")).2 = false)
    (hd : (getProp B st b kBlockIface (qs "Drive")).2 = false) :
    classifyBlock B st b = Verdict.noDrive := by
  unfold classifyBlock
  simp [hn, hd]

theorem listUsbRemovable_error (B : Backend σ) (st : σ) (blocks : List QString)
    (hv : B.isValid st kManagerPath kManagerIface = true)
    (hb : B.getBlockDevices st = Reply.value blocks) :
    (listUsbRemovable B st).2 = [] ∨ noUsbInfo (listUsbRemovable B st).2 = true := by
  unfold listUsbRemovable
  simp only [hv, hb, Bool.not_true, Bool.false_eq_true, if_false]
  split_ifs
  · exact Or.inr (noUsbInfo_zeroDevicesMessage _)
  · exact Or.inl rfl

/-- C14, amended: `getProp` reports success or failure only: with an invalid
properties handle and with any error reply, whatever the error is, it returns
the invalid variant with `ok = false`, and with a value reply it returns the
value with `ok = true`.  During enumeration a block is counted as a partition
exactly when the read of `Partition.Number` succeeds, so a read that fails,
in transport or because the interface is absent, makes it a non-partition; a
block whose `Drive` link cannot be read either is excluded as having no drive;
and no failed property read is reported to the caller: with a valid manager and
a successful listing the error text is empty or the informational zero-devices
diagnostic. -/
theorem failed_reads_handled_as_absent (B : Backend σ) (st : σ) :
    (∀ o i p : QString, B.isValid st o kPropsIface = false →
      getProp B st o i p = (QVariant.invalid, false)) ∧
    (∀ (o i p : QString) (e : DBusError), B.get st o i p = Reply.error e →
      getProp B st o i p = (QVariant.invalid, false)) ∧
    (∀ (o i p : QString) (v : QVariant), B.isValid st o kPropsIface = true →
      B.get st o i p = Reply.value v → getProp B st o i p = (v, true)) ∧
    (∀ b : QString, classifyBlock B st b = Verdict.partition ↔
      (getProp B st b kPartitionIface (qs "Number")).2 = true) ∧
    (∀ b : QString, (getProp B st b kPartitionIface (qs "Number")).2 = false →
      (getProp B st b kBlockIface (qs "Drive")).2 = false →
      classifyBlock B st b = Verdict.noDrive) ∧
    (B.isValid st kManagerPath kManagerIface = true →
      ∀ blocks : List QString, B.getBlockDevices st = Reply.value blocks →
        (listUsbRemovable B st).2 = [] ∨ noUsbInfo (listUsbRemovable B st).2 = true) := by
  refine ⟨?_, ?_, ?_, classifyBlock_partition_iff B st, classifyBlock_noDrive B st,
    fun hv blocks hb => listUsbRemovable_error B st blocks hv hb⟩
  · intro o i p h
    simp [getProp, h]
  · intro o i p e he
    unfold getProp
    rw [he]
    split_ifs <;> rfl
  · intro o i p v hv hg
    simp [getProp, hv, hg]

/-- The amended C14 in scenario B with the `Partition.Number` of `sdb1` lost in
transport: `sdb1` is not classified as a partition and the error text is
empty. -/
theorem failed_reads_handled_as_absent_witness :
    getProp (faultyBackend scenarioB [partitionNumberRead]) [] (blockPath "sdb1")
        kPartitionIface (qs "Number") = (QVariant.invalid, false) ∧
    classifyBlock (faultyBackend scenarioB [partitionNumberRead]) [] (blockPath "sdb1")
      ≠ Verdict.partition ∧
    ((listUsbRemovable (faultyBackend scenarioB [partitionNumberRead]) []).2 = [] ∨
      noUsbInfo (listUsbRemovable (faultyBackend scenarioB [partitionNumberRead]) []).2 = true) :=
  have h := failed_reads_handled_as_absent (faultyBackend scenarioB [partitionNumberRead]) []
  have hp := h.2.1 (blockPath "sdb1") kPartitionIface (qs "Number") transportError (by decide)
  ⟨hp, fun hc => absurd ((h.2.2.2.1 (blockPath "sdb1")).1 hc) (by rw [hp]; decide),
    h.2.2.2.2.2 (by decide) [blockPath "sdb", blockPath "sdb1"] (by decide)⟩


end FFrog
